import Mathlib

/-! # scrapper: a shallow embedding of `main.go`

The program loads a product page (HTML) into an `h5.Node` tree, runs one
extractor per product attribute over the tree, and writes the records of a
range of product identifiers as one JSON document.

Conventions of the embedding

* Go `string` and `[]byte` values are Lean `String`s.
* A Go function that can stop with a run-time panic (an index out of range)
  returns an `Option`: `none` is the panic.
* The functions of other packages the program calls (`transform`'s selector,
  `html.UnescapeString`, `json.Encoder.Encode`) are collected in the
  structure `Externals`; every general theorem holds for arbitrary externals.
-/

set_option maxRecDepth 100000

namespace Scrapper

/-! ## The document tree (`h5.Node`) -/

/-- An attribute of an element: `h5.Attribute`. -/
structure Attribute where
  Name : String
  Value : String

/-- A node of the parsed tree: `h5.Node`. `Type_` is the field `Type` of the
source (`0` is a text node, `1` an element node), `data` what `Data()`
returns: the text of a text node, the tag of an element node. -/
inductive Node where
  | mk (Type_ : Nat) (data : String) (Attr : List Attribute) (Children : List Node)

namespace Node

/-- The field `Type` of a node. -/
def Type_ : Node → Nat
  | mk t _ _ _ => t

/-- The method `Data()` of a node. -/
def Data : Node → String
  | mk _ d _ _ => d

/-- The field `Attr` of a node. -/
def Attr : Node → List Attribute
  | mk _ _ a _ => a

/-- The field `Children` of a node. -/
def Children : Node → List Node
  | mk _ _ _ cs => cs

end Node

/-- A text node. -/
def text (s : String) : Node := Node.mk 0 s [] []

/-- An element node. -/
def elem (tag : String) (attrs : List Attribute) (children : List Node) : Node :=
  Node.mk 1 tag attrs children

mutual
/-- The nodes of a subtree in document order (depth first, pre-order), the
root of the subtree first. -/
def walk : Node → List Node
  | Node.mk t d a cs => Node.mk t d a cs :: walkList cs
/-- The nodes of a list of subtrees in document order. -/
def walkList : List Node → List Node
  | [] => []
  | c :: cs => walk c ++ walkList cs
end

/-! ## Strings (`strings`, `fmt`) -/

/-- The loop of `strings.Replace(s, old, new, 1)` over the characters of `s`:
the first occurrence of `old` is replaced by `new`. -/
def replaceOnceChars (old new : List Char) : List Char → List Char
  | [] => if old = [] then new else []
  | c :: cs =>
    if old.isPrefixOf (c :: cs) then new ++ (c :: cs).drop old.length
    else c :: replaceOnceChars old new cs

/-- The call `strings.Replace(s, old, new, 1)`. -/
def ReplaceOnce (s old new : String) : String :=
  String.mk (replaceOnceChars old.data new.data s.data)

/-- The call `strings.Trim(s, cutset)`: the characters of `cutset` are removed
from both ends of `s`. -/
def Trim (s cutset : String) : String :=
  String.mk
    (((s.data.dropWhile (fun c => cutset.data.contains c)).reverse.dropWhile
      (fun c => cutset.data.contains c)).reverse)

/-- Whether `old` occurs in `s` (`strings.Contains` on characters). -/
def containsChars (old : List Char) : List Char → Bool
  | [] => old.isEmpty
  | c :: cs => old.isPrefixOf (c :: cs) || containsChars old cs

/-! ## The record (`Result`, `Selectable`) -/

/-- A Go `map[string]string`: the keys in the order of their first
assignment. -/
abbrev StringMap := List (String × String)

/-- The assignment `list[key] = val` on a map. -/
def StringMap.set : StringMap → String → String → StringMap
  | [], key, val => [(key, val)]
  | (k, v) :: rest, key, val =>
    if k = key then (k, val) :: rest else (k, v) :: StringMap.set rest key val

/-- The structure `Selectable` of the source. -/
structure Selectable where
  Name : String
  Options : List String

/-- The structure `Result` of the source. A nil slice is the empty list, a
nil map is `none`. -/
structure Result where
  Name : String
  Category : String
  Features : Option StringMap
  Images : List String
  Descriptions : List String
  Extras : List Selectable
  Details : StringMap
  Geometry : String

/-! ## The functions of other packages -/

/-- The library functions the extractors call.
`Apply sel node` is `transform.NewSelectorQuery(sel).Apply(node)`,
`UnescapeString` is `html.UnescapeString`, and `Encode r` is what
`json.NewEncoder(&buffer).Encode(r)` writes to the buffer, or its error. -/
structure Externals where
  Apply : String → Node → List Node
  UnescapeString : String → String
  Encode : Result → Except String String

/-! ## Title -/

/-- The loop `for _, sel := range selector` shared by `ParseTitle` and
`ParseFeatures`: each query is applied to the first result of the one before.
`none` is the early return on a query without result, `some result` the
value of `result` after the loop. -/
def selectorLoop (E : Externals) : List String → Node → List Node → Option (List Node)
  | [], _, result => some result
  | sel :: rest, tNode, _ =>
    match E.Apply sel tNode with
    | [] => none
    | r :: rs => selectorLoop E rest r (r :: rs)

/-- The function `ParseTitle`. -/
def ParseTitle (E : Externals) (node : Node) : Option String :=
  match selectorLoop E ["#primary_block", "h2"] node [] with
  | none => some "No match"
  | some result => do
    let r ← result[0]?
    let c ← r.Children[0]?
    pure (E.UnescapeString c.Data)

/-! ## Features -/

/-- The function `CheckForEditable`. -/
def CheckForEditable (E : Externals) (node : List Node) : Option (List Node × Bool) := do
  let n ← node[0]?
  let result := E.Apply ".editable" n
  if result.length = 1 then pure (result, true) else pure (node, false)

/-- The function `CheckForAvailable`. -/
def CheckForAvailable (E : Externals) (node : Node) : Bool × Bool :=
  if (E.Apply ".not_available" node).length = 1 then (true, false)
  else if (E.Apply ".available" node).length = 1 then (true, true)
  else (false, false)

/-- The function `ExtractFeature`. -/
def ExtractFeature (E : Externals) (node : Node) : Option (String × String) := do
  let result := E.Apply ".feature_name" node
  let r ← result[0]?
  let c ← r.Children[0]?
  let key := E.UnescapeString c.Data
  let result := E.Apply ".feature_value" node
  let (result, editable) ← CheckForEditable E result
  if editable then
    let r ← result[0]?
    let c ← r.Children[0]?
    pure (key, c.Data)
  else
    let r ← result[0]?
    let (available, status) := CheckForAvailable E r
    if available then
      pure (key, if status then "Dostupno" else "Nedostupno")
    else
      let c ← r.Children[0]?
      pure (key, Trim (E.UnescapeString c.Data) " \t\n\r")

/-- The loop `for _, res := range result` of `ParseFeatures`. -/
def featuresLoop (E : Externals) : List Node → StringMap → Option StringMap
  | [], list => some list
  | res :: rest, list =>
    match ExtractFeature E res with
    | none => none
    | some (key, val) => featuresLoop E rest (list.set key val)

/-- The function `ParseFeatures`: `some none` is the nil map. -/
def ParseFeatures (E : Externals) (node : Node) : Option (Option StringMap) :=
  match selectorLoop E
      [".product_short_features_list nuc_short_festures_list", "table", "tbody", "tr"]
      node [] with
  | none => some none
  | some result => (featuresLoop E result []).map some

/-! ## Images -/

/-- The loop `for _, attr := range n.Attr` that assigns the value of every
attribute named `src` to `baseSrc`; the result is `baseSrc` after the loop. -/
def srcLoop : List Attribute → String → String
  | [], baseSrc => baseSrc
  | attr :: rest, baseSrc =>
    if attr.Name = "src" then srcLoop rest attr.Value else srcLoop rest baseSrc

/-- The loop `for _, res := range result` of `ParseThumbs`, from the values
of `baseSrc` and `list` before an iteration. -/
def thumbsLoop (url : String) : List Node → String → List String → List String
  | [], _, list => list
  | res :: rest, baseSrc, list =>
    let baseSrc := srcLoop res.Attr baseSrc
    let list := list ++ [url ++ baseSrc]
    let largeSrc := ReplaceOnce baseSrc "medium" "thickbox"
    let list := list ++ [url ++ largeSrc]
    thumbsLoop url rest baseSrc list

/-- The function `ParseThumbs`. -/
def ParseThumbs (E : Externals) (node : Node) (url : String) : List String :=
  thumbsLoop url (E.Apply "img" node) "" []

/-- The variable `coreUrl` of `ParseImages`. -/
def coreUrl : String := "http://keindl-sport.hr"

/-- The function `ParseImages`. -/
def ParseImages (E : Externals) (node : Node) : List String :=
  let list : List String :=
    match E.Apply "#bigpic" node with
    | [] => []
    | r :: _ =>
      let baseSrc := srcLoop r.Attr ""
      let largeSrc := ReplaceOnce baseSrc "large" "thickbox"
      [coreUrl ++ baseSrc, coreUrl ++ largeSrc]
  match E.Apply "#thumbs_list_frame" node with
  | [] => list
  | r :: _ => list ++ ParseThumbs E r coreUrl

/-! ## Category -/

/-- The function `ParseCategory`. -/
def ParseCategory (E : Externals) (node : Node) : Option String :=
  match E.Apply ".navigation_end" node with
  | [] => some ""
  | r :: _ => do
    let c ← r.Children[0]?
    let d ← c.Children[0]?
    pure (E.UnescapeString d.Data)

/-! ## Descriptions -/

/-- The loop of `ExtractSpecialDescription`: the value of `parts`. -/
def specialParts : List Node → List String
  | [] => []
  | set :: rest =>
    (if set.Type_ = 0 then [set.Data] else []) ++
    (if set.Type_ = 1 then
      (match set.Children with
       | c :: _ => if c.Type_ = 0 then [c.Data] else []
       | [] => [])
     else []) ++
    specialParts rest

/-- The function `ExtractSpecialDescription`. -/
def ExtractSpecialDescription (E : Externals) (sets : List Node) : String :=
  E.UnescapeString (String.join (specialParts sets))

/-- The loop `for _, chapter := range result[0].Children` of
`ParseDescriptions`. -/
def descriptionsLoop (E : Externals) : List Node → List String → Option (List String)
  | [], list => some list
  | chapter :: rest, list =>
    match E.Apply "span" chapter with
    | [] => descriptionsLoop E rest list
    | m :: _ =>
      if m.Children.length > 1 then
        descriptionsLoop E rest (list ++ [ExtractSpecialDescription E m.Children])
      else
        match m.Children with
        | [] => none
        | c :: _ => descriptionsLoop E rest (list ++ [c.Data])

/-- The function `ParseDescriptions`. -/
def ParseDescriptions (E : Externals) (node : Node) : Option (List String) :=
  match E.Apply "#idTab1" node with
  | [] => some []
  | r :: _ => descriptionsLoop E r.Children []

/-! ## Extras -/

/-- The function `ExtractExtraName`. -/
def ExtractExtraName (E : Externals) (node : Node) : Option String := do
  let c ← node.Children[1]?
  let d ← c.Children[0]?
  if d.Type_ = 0 then pure (Trim (E.UnescapeString d.Data) ": ") else pure ""

/-- The loop `for _, opt := range node.Children[3].Children` of
`ExtractExtraVals`. -/
def extraValsLoop (E : Externals) : List Node → List String → List String
  | [], list => list
  | opt :: rest, list =>
    match opt.Children with
    | [] => extraValsLoop E rest list
    | c :: _ => extraValsLoop E rest (list ++ [E.UnescapeString c.Data])

/-- The function `ExtractExtraVals`. -/
def ExtractExtraVals (E : Externals) (node : Node) : Option (List String) := do
  let c ← node.Children[3]?
  pure (extraValsLoop E c.Children [])

/-- The loop `for _, set := range result[0].Children` of `ParseExtras`. -/
def extrasLoop (E : Externals) : List Node → List Selectable → Option (List Selectable)
  | [], list => some list
  | set :: rest, list =>
    if set.Children.length = 0 then extrasLoop E rest list
    else
      match ExtractExtraName E set with
      | none => none
      | some name =>
        match ExtractExtraVals E set with
        | none => none
        | some opts => extrasLoop E rest (list ++ [Selectable.mk name opts])

/-- The function `ParseExtras`. -/
def ParseExtras (E : Externals) (node : Node) : Option (List Selectable) :=
  match E.Apply "#attributes" node with
  | [r] => extrasLoop E r.Children []
  | _ => some []

/-! ## Details -/

/-- The function `ExtractDetail`. -/
def ExtractDetail (E : Externals) (node : Node) : Option (String × String) := do
  let result := E.Apply ".product_feature_name" node
  let r ← result[0]?
  let c ← r.Children[0]?
  let key := Trim (E.UnescapeString c.Data) " :\t\n\r"
  let result := E.Apply ".product_feature_value" node
  let r ← result[0]?
  let c ← r.Children[0]?
  pure (key, Trim (E.UnescapeString c.Data) " :\t\n\r")

/-- The loop `for _, res := range row` of `ParseDetails`. -/
def detailsLoop (E : Externals) : List Node → StringMap → Option StringMap
  | [], list => some list
  | res :: rest, list =>
    match ExtractDetail E res with
    | none => none
    | some (key, val) => detailsLoop E rest (list.set key val)

/-- The function `ParseDetails`. -/
def ParseDetails (E : Externals) (node : Node) : Option StringMap :=
  match E.Apply "#idTab2" node with
  | [] => some []
  | r :: _ => detailsLoop E (E.Apply "tr" r) []

/-! ## Geometry -/

/-- The function `ParseGeometry`. -/
def ParseGeometry (E : Externals) (node : Node) : Option String :=
  match E.Apply "#geometry_image" node with
  | [] => some ""
  | r :: _ => do
    let c ← r.Children[0]?
    pure (E.UnescapeString (srcLoop c.Attr ""))

/-! ## The assembler (`GetData`) -/

/-- Lines 128 to 149 of `GetData`: the value of `r` when the encoder is
reached, or the error returned before. `none` is a panic in an extractor. -/
def GetRecord (E : Externals) (node : Node) : Option (Except String Result) := do
  let name ← ParseTitle E node
  if name = "No match" then pure (Except.error "Not a valid product")
  else
    let category ← ParseCategory E node
    let features ← ParseFeatures E node
    let images := ParseImages E node
    let descriptions ← ParseDescriptions E node
    let extras ← ParseExtras E node
    let details ← ParseDetails E node
    let geometry ← ParseGeometry E node
    pure (Except.ok
      (Result.mk name category features images descriptions extras details geometry))

/-- The function `GetData`: the pair of the bytes and the error returned
(`none` for the nil error). -/
def GetData (E : Externals) (node : Node) : Option (String × Option String) := do
  match ← GetRecord E node with
  | Except.error e => pure ("", some e)
  | Except.ok r =>
    match E.Encode r with
    | Except.error e => pure ("", some e)
    | Except.ok buffer => pure (buffer, none)

/-! ## The document source (`GetProduct`) -/

/-- What `http.Get` followed by `ioutil.ReadAll` gives for a product:
`failed` when `http.Get` returns an error, `unreadable` when `ReadAll` does,
and the body otherwise. -/
inductive Response where
  | failed
  | unreadable
  | body (buffer : String)

/-- The flag `cached`, the network and the disk as a call of `GetProduct` finds
them. The URL and the file name of a product are functions of its identifier,
so the identifier stands for both. `WriteFile id` tells whether
`ioutil.WriteFile` succeeds on the cache file of `id`, and `Parse s` is the
tree of `h5.NewParserFromString(s)` after `Parse()`, `none` when `Parse()`
returns an error. -/
structure World where
  cached : Bool
  Parse : String → Option Node
  Get : Nat → Response
  CheckOnDisc : Nat → Bool
  ReadFile : Nat → Option String
  WriteFile : Nat → Bool

/-- The effects of `GetProduct` that the orchestration is about. -/
inductive Event where
  | get (id : Nat)
  | save (id : Nat)
  | sleep

/-- The function `GetHtmlNodeFromUrl`: its events and its result; the result
`none` is the end of the process in `log.Fatalf`, `some none` the nil node. -/
def GetHtmlNodeFromUrl (W : World) (id : Nat) :
    List Event × Option (Option Node) :=
  match W.Get id with
  | Response.failed => ([Event.get id], none)
  | Response.unreadable => ([Event.get id], some none)
  | Response.body buffer =>
    match W.Parse buffer with
    | none => ([Event.get id], none)
    | some node =>
      if W.WriteFile id then ([Event.get id, Event.save id], some (some node))
      else ([Event.get id, Event.save id], none)

/-- The function `GetHtmlNodeFromFile`: the node, `none` for nil. -/
def GetHtmlNodeFromFile (W : World) (id : Nat) : Option Node :=
  match W.ReadFile id with
  | none => none
  | some content => W.Parse content

/-- The call of `GetHtmlNodeFromUrl` followed by `time.Sleep(1 * time.Second)`. -/
def fetchAndSleep (W : World) (id : Nat) :
    List Event × Option (Option Node) :=
  match GetHtmlNodeFromUrl W id with
  | (events, none) => (events, none)
  | (events, some node) => (events ++ [Event.sleep], some node)

/-- The function `GetProduct`: its events and its result. The result `none`
is the end of the process (in `log.Fatalf` or in a panic), `some (data, err)`
the pair returned. -/
def GetProduct (W : World) (E : Externals) (productId : Nat) :
    List Event × Option (String × Option String) :=
  let fetched : List Event × Option (Option Node) :=
    if W.cached then
      let node : Option Node :=
        if W.CheckOnDisc productId then GetHtmlNodeFromFile W productId else none
      match node with
      | some n => ([], some (some n))
      | none => fetchAndSleep W productId
    else fetchAndSleep W productId
  match fetched with
  | (events, none) => (events, none)
  | (events, some none) =>
    (events, some ("", some ("Could not parse node from product id: " ++ toString productId)))
  | (events, some (some node)) => (events, GetData E node)

/-! ## The orchestrator (`main`) -/

/-- How a run of `main` stands: `written data` after `WriteJsonOutput(data)`,
`returned` after the `return` that writes nothing, `exited` when a call of
`GetProduct` ended the process, `running` when the loop has not finished
within the steps allowed. -/
inductive Outcome where
  | written (data : String)
  | returned
  | exited
  | running

/-- A run of `main`: the identifiers `GetProduct` was called with, in the order
of the calls, and how the run stands. -/
structure Run where
  calls : List Nat
  outcome : Outcome

/-- The loop `for i := *min; i <= *max; i++` of `main`, at most `fuel`
iterations of it, from the values of `i`, `chunks` and the calls made before
an iteration. `gp` is `GetProduct`; the counter is a `uint64`. -/
def rangeLoop (gp : Nat → Option (String × Option String)) (max : Nat) :
    Nat → Nat → String → List Nat → Run
  | 0, _, _, calls => Run.mk calls Outcome.running
  | fuel + 1, i, chunks, calls =>
    if i ≤ max then
      match gp i with
      | none => Run.mk (calls ++ [i]) Outcome.exited
      | some (data, err) =>
        let chunks :=
          if err.isSome then chunks
          else (chunks ++ data) ++ (if i < max then "," else "")
        rangeLoop gp max fuel ((i + 1) % 2 ^ 64) chunks (calls ++ [i])
    else Run.mk calls (Outcome.written (chunks ++ "]\x7d"))

/-- The function `main` for the flags `single`, `min` and `max`, the loop
being allowed `fuel` iterations. -/
def main (gp : Nat → Option (String × Option String)) (single min max fuel : Nat) : Run :=
  let chunks := "\x7b\"Products\":["
  if single > 0 then
    match gp single with
    | none => Run.mk [single] Outcome.exited
    | some (data, err) =>
      if err.isSome then Run.mk [single] Outcome.returned
      else Run.mk [single] (Outcome.written ((chunks ++ data) ++ "]\x7d"))
  else rangeLoop gp max fuel min chunks []

/-- The program: `main` with the `GetProduct` of a world. -/
def program (W : World) (E : Externals) (single min max fuel : Nat) : Run :=
  main (fun id => (GetProduct W E id).2) single min max fuel

/-! ## Concrete externals for the closed examples

The general theorems below hold for every `Externals`. The closed examples
(witnesses and counterexamples) need one to compute with. -/

/-- Modelled from the spec: the node selector of section 4.2, whose code (the
package `transform`) is not part of the repository. A query is a tag name, an
id (`#name`) or a class (`.name`, compared with the whole `class`
attribute); it matches element nodes only. -/
def matchesQuery (sel : String) (n : Node) : Bool :=
  n.Type_ == 1 &&
  match sel.data with
  | '#' :: name => n.Attr.any (fun a => a.Name == "id" && a.Value.data == name)
  | '.' :: name => n.Attr.any (fun a => a.Name == "class" && a.Value.data == name)
  | tag => n.Data.data == tag

/-- Modelled from the spec: `select(root, query)` of section 4.2, the
matching nodes of the subtree in document order (depth first, pre-order). -/
def selectNodes (sel : String) (node : Node) : List Node :=
  (walk node).filter (matchesQuery sel)

/-- The entities the model of `html.UnescapeString` knows, without their
`&`. -/
def entities : List (List Char × Char) :=
  [("amp;".data, '&'), ("lt;".data, '<'), ("gt;".data, '>'), ("quot;".data, '"'),
   ("nbsp;".data, Char.ofNat 160)]

/-- The characters of a text with the entities of `entities` replaced;
`skip` characters of an entity already replaced are still to be dropped. -/
def unescapeChars : Nat → List Char → List Char
  | _, [] => []
  | skip + 1, _ :: cs => unescapeChars skip cs
  | 0, c :: cs =>
    if c = '&' then
      match entities.find? (fun e => e.1.isPrefixOf cs) with
      | some e => e.2 :: unescapeChars e.1.length cs
      | none => c :: unescapeChars 0 cs
    else c :: unescapeChars 0 cs

/-- A fragment of `html.UnescapeString` (standard library): the text is
unchanged but for the entities `&amp;`, `&lt;`, `&gt;`, `&quot;` and `&nbsp;`
(the last one is U+00A0). It is the library function on every text in which
each `&` starts one of these five, or is followed by letters that start no
entity name of HTML (as in `&am`), which the library leaves as they stand. -/
def unescapeModel (s : String) : String :=
  String.mk (unescapeChars 0 s.data)

/-- The escape of one character in a JSON string, as `encoding/json` writes
it (control characters other than `\n`, `\r`, `\t` are not modelled). -/
def jsonEscape (c : Char) : List Char :=
  if c = '"' then "\\\"".data
  else if c = '\\' then "\\\\".data
  else if c = '\n' then "\\n".data
  else if c = '\r' then "\\r".data
  else if c = '\t' then "\\t".data
  else if c = '<' then "\\u003c".data
  else if c = '>' then "\\u003e".data
  else if c = '&' then "\\u0026".data
  else [c]

/-- A JSON string. -/
def jsonString (s : String) : String :=
  ("\"" ++ String.mk (s.data.flatMap jsonEscape)) ++ "\""

/-- The members of a JSON array or object, separated by commas. -/
def commaSep : List String → String
  | [] => ""
  | [x] => x
  | x :: y :: rest => (x ++ ",") ++ commaSep (y :: rest)

/-- A slice of strings as JSON: `null` for the nil slice. -/
def jsonStrings (xs : List String) : String :=
  if xs.isEmpty then "null" else ("[" ++ commaSep (xs.map jsonString)) ++ "]"

/-- Insertion of an entry in a list of entries sorted by key. -/
def insertByKey (e : String × String) : StringMap → StringMap
  | [] => [e]
  | x :: rest => if e.1 < x.1 then e :: x :: rest else x :: insertByKey e rest

/-- A map as JSON, the keys sorted. -/
def jsonMap (m : StringMap) : String :=
  ("\x7b" ++ commaSep ((m.foldr insertByKey []).map
    (fun e => (jsonString e.1 ++ ":") ++ jsonString e.2))) ++ "\x7d"

/-- A `Selectable` as JSON. -/
def jsonSelectable (x : Selectable) : String :=
  ((("\x7b\"Name\":" ++ jsonString x.Name) ++ ",\"Options\":") ++ jsonStrings x.Options) ++ "\x7d"

/-- A model of `json.Encoder.Encode` (standard library) on a `Result`: the
object with the fields in the order of their declaration, followed by a
newline. It never returns an error. -/
def encodeModel (r : Result) : Except String String :=
  Except.ok
    (("\x7b\"Name\":" ++ jsonString r.Name ++
      ",\"Category\":" ++ jsonString r.Category ++
      ",\"Features\":" ++ (match r.Features with
        | none => "null"
        | some m => jsonMap m) ++
      ",\"Images\":" ++ jsonStrings r.Images ++
      ",\"Descriptions\":" ++ jsonStrings r.Descriptions ++
      ",\"Extras\":" ++ (if r.Extras.isEmpty then "null"
        else ("[" ++ commaSep (r.Extras.map jsonSelectable)) ++ "]") ++
      ",\"Details\":" ++ jsonMap r.Details ++
      ",\"Geometry\":" ++ jsonString r.Geometry) ++ "\x7d\n")

/-- The externals of the closed examples. -/
def stdExternals : Externals where
  Apply := selectNodes
  UnescapeString := unescapeModel
  Encode := encodeModel

/-! ## Example documents -/

/-- A page without `#primary_block`:
`<div id="center_column"><p>Not found</p></div>`. -/
def docNoTitle : Node :=
  elem "html" [] [elem "body" []
    [elem "div" [⟨"id", "center_column"⟩] [elem "p" [] [text "Not found"]]]]

/-- A page whose title is an empty comment:
`<div id="primary_block"><h2><!----></h2></div>`. -/
def docEmptyTitle : Node :=
  elem "html" [] [elem "body" []
    [elem "div" [⟨"id", "primary_block"⟩] [elem "h2" [] [Node.mk 3 "" [] []]]]]

/-- A product page with a title, a primary image and two thumbnails. -/
def docBoot : Node :=
  elem "html" [] [elem "body" []
    [elem "div" [⟨"id", "primary_block"⟩]
      [elem "h2" [] [text "Hiking Boot"],
       elem "img" [⟨"id", "bigpic"⟩, ⟨"src", "/img/large/1.jpg"⟩] [],
       elem "div" [⟨"id", "thumbs_list_frame"⟩]
        [elem "img" [⟨"src", "/img/medium/1.jpg"⟩] [],
         elem "img" [⟨"src", "/img/medium/2.jpg"⟩] []]]]]

/-- What `GetData` writes for `docBoot`. -/
def bootJson : String :=
  "\x7b\"Name\":\"Hiking Boot\",\"Category\":\"\",\"Features\":null,\"Images\":[\"http://keindl-sport.hr/img/large/1.jpg\",\"http://keindl-sport.hr/img/thickbox/1.jpg\",\"http://keindl-sport.hr/img/medium/1.jpg\",\"http://keindl-sport.hr/img/thickbox/1.jpg\",\"http://keindl-sport.hr/img/medium/2.jpg\",\"http://keindl-sport.hr/img/thickbox/2.jpg\"],\"Descriptions\":null,\"Extras\":null,\"Details\":\x7b\x7d,\"Geometry\":\"\"\x7d\n"

/-- What `GetData` writes for `docEmptyTitle`. -/
def emptyTitleJson : String :=
  "\x7b\"Name\":\"\",\"Category\":\"\",\"Features\":null,\"Images\":null,\"Descriptions\":null,\"Extras\":null,\"Details\":\x7b\x7d,\"Geometry\":\"\"\x7d\n"

/-- A cell of a feature row: `<td class="...">...</td>`. -/
def cell (cls : String) (children : List Node) : Node :=
  elem "td" [⟨"class", cls⟩] children

/-- A marker or an editable field: `<span class="...">...</span>`. -/
def span (cls : String) (children : List Node) : Node :=
  elem "span" [⟨"class", cls⟩] children

/-- A feature row with the name `name` and the given content of the
`.feature_value` cell. -/
def featureRow (name : String) (value : List Node) : Node :=
  elem "tr" [] [cell "feature_name" [text name], cell "feature_value" value]

/-- A row whose value holds one editable field next to an `.available`
marker. -/
def rowEditable : Node :=
  featureRow "Size" [span "editable" [text " 42&nbsp;EU "], span "available" []]

/-- A row whose value holds two editable fields. -/
def rowTwoEditable : Node :=
  featureRow "Size" [span "editable" [text "A"], span "editable" [text "B"]]

/-- A row whose value holds one `.not_available` marker. -/
def rowUnavailable : Node :=
  featureRow "Gore-Tex" [span "not_available" []]

/-- A row whose value holds two `.not_available` markers. -/
def rowTwoUnavailable : Node :=
  featureRow "Gore-Tex" [span "not_available" [], span "not_available" []]

/-- A row whose value holds one `.available` marker. -/
def rowAvailable : Node :=
  featureRow "Vibram" [span "available" []]

/-- A row whose value holds two `.available` markers. -/
def rowTwoAvailable : Node :=
  featureRow "Vibram" [span "available" [], span "available" []]

/-- A row whose value holds an `.available` and a `.not_available` marker. -/
def rowBothMarkers : Node :=
  featureRow "Vibram" [span "available" [], span "not_available" []]

/-! ## Images: the layout of the list in the words of the spec -/

/-- The pair of the primary image: empty without a `#bigpic` match, else the
URL of its source followed by the zoomed variant. -/
def primaryPair (E : Externals) (node : Node) : List String :=
  match E.Apply "#bigpic" node with
  | [] => []
  | r :: _ =>
    [coreUrl ++ srcLoop r.Attr "",
     coreUrl ++ ReplaceOnce (srcLoop r.Attr "") "large" "thickbox"]

/-- The `img` elements under the first `#thumbs_list_frame` match, in
document order. -/
def thumbImgs (E : Externals) (node : Node) : List Node :=
  match E.Apply "#thumbs_list_frame" node with
  | [] => []
  | r :: _ => E.Apply "img" r

/-- The source the loop of `ParseThumbs` holds for each `img` element in
turn, `baseSrc` being its value before the first. -/
def thumbSrcs : List Node → String → List String
  | [], _ => []
  | res :: rest, baseSrc =>
    srcLoop res.Attr baseSrc :: thumbSrcs rest (srcLoop res.Attr baseSrc)

/-- The pair of a thumbnail with the source `s`. -/
def thumbPair (url s : String) : List String :=
  [url ++ s, url ++ ReplaceOnce s "medium" "thickbox"]

/-- A thumbnail frame whose second `img` has no `src` attribute. -/
def frameStale (first : String) : Node :=
  elem "div" [⟨"id", "thumbs_list_frame"⟩]
    [elem "img" [⟨"src", first⟩] [], elem "img" [⟨"alt", "side view"⟩] []]

/-- A page whose primary image has "large" twice in its source. -/
def docTwoLarge : Node :=
  elem "html" [] [elem "body" []
    [elem "div" [⟨"id", "primary_block"⟩]
      [elem "h2" [] [text "Hiking Boot"],
       elem "img" [⟨"id", "bigpic"⟩, ⟨"src", "/img/large/large_1.jpg"⟩] []]]]

/-! ## Example worlds -/

/-- The text of a product page. -/
def pageBoot : String := "<html><body><div id=\"primary_block\">...</div></body></html>"

/-- The text of the page of an identifier without product. -/
def pageGone : String := "<html><body><div id=\"center_column\">...</div></body></html>"

/-- The parser on the two example pages: `pageBoot` is the text of `docBoot`
and `pageGone` the text of `docNoTitle`. -/
def parseExample (s : String) : Option Node :=
  if s = pageBoot then some docBoot
  else if s = pageGone then some docNoTitle
  else none

/-- A run without `-cached`, every cache file writable, the site answering
`get`. -/
def exampleWorld (get : Nat → Response) : World where
  cached := false
  Parse := parseExample
  Get := get
  CheckOnDisc := fun _ => false
  ReadFile := fun _ => none
  WriteFile := fun _ => true

/-- The site on which 7 is not a product and every other identifier is. -/
def siteWithout7 (id : Nat) : Response :=
  if id = 7 then Response.body pageGone else Response.body pageBoot

/-- The site that cannot be reached for identifier 5. -/
def siteDownAt5 (id : Nat) : Response :=
  if id = 5 then Response.failed else Response.body pageBoot

/-! ## The node `GetProduct` works on -/

/-- Lines 171 to 183 of `GetProduct`: the events and the value of `node` when
the test `node == nil` is reached; `none` is the end of the process in
`log.Fatalf`, `some none` the nil node. -/
def loadNode (W : World) (productId : Nat) : List Event × Option (Option Node) :=
  if W.cached then
    let node : Option Node :=
      if W.CheckOnDisc productId then GetHtmlNodeFromFile W productId else none
    match node with
    | some n => ([], some (some n))
    | none => fetchAndSleep W productId
  else fetchAndSleep W productId

/-- The text of a page the parser rejects. -/
def pageBroken : String := "<html"

/-- The site that cannot be reached for identifier 6. -/
def siteDownAt6 (id : Nat) : Response :=
  if id = 6 then Response.failed else Response.body pageBoot

/-- The site whose page for identifier 6 does not parse. -/
def siteBrokenAt6 (id : Nat) : Response :=
  if id = 6 then Response.body pageBroken else Response.body pageBoot

/-! ## Example documents for the extras, the geometry and the descriptions -/

/-- A page with the given children of its one `#attributes` node. -/
def docAttributes (children : List Node) : Node :=
  elem "html" [] [elem "body" [] [elem "div" [⟨"id", "attributes"⟩] children]]

/-- An option group with its label and its options in the slots the code
reads: `<p> <label>Size: </label> <select><option>41</option>
<option>42</option></select></p>`. -/
def groupSize : Node :=
  elem "p" []
    [text " ", elem "label" [] [text "Size: "], text " ",
     elem "select" [] [elem "option" [] [text "41"], elem "option" [] [text "42"]]]

/-- An option group whose label starts with an element and whose `select` is
empty: `<p> <label><b>Size</b></label> <select></select></p>`. -/
def groupBlank : Node :=
  elem "p" []
    [text " ", elem "label" [] [elem "b" [] [text "Size"]], text " ", elem "select" [] []]

/-- A child of `#attributes` with one child node only: `<p>Size</p>`. -/
def groupShort : Node := elem "p" [] [text "Size"]

/-- A child of `#attributes` with a label and no fourth child:
`<p> <label>Size: </label></p>`. -/
def groupNoOptions : Node := elem "p" [] [text " ", elem "label" [] [text "Size: "]]

/-- A page whose `#geometry_image` node has the given children. -/
def docGeometry (children : List Node) : Node :=
  elem "html" [] [elem "body" [] [elem "div" [⟨"id", "geometry_image"⟩] children]]

/-- A page whose `#idTab1` node has one chapter, a `p` with a `span` of the
given children. -/
def docChapter (children : List Node) : Node :=
  elem "html" [] [elem "body" []
    [elem "div" [⟨"id", "idTab1"⟩] [elem "p" [] [elem "span" [] children]]]]

/-! ## Extras and descriptions in the words of the spec -/

/-- A direct child of `#attributes` that has at least one child node. -/
def hasChild (set : Node) : Bool := set.Children.length != 0

/-- The first `span` of each chapter that has one, in the order of the
chapters. -/
def chapterSpans (E : Externals) (chapters : List Node) : List Node :=
  chapters.filterMap (fun chapter => (E.Apply "span" chapter).head?)

/-- What a child of a `span` contributes to the text of a description: its
data when it is a text node, the data of its first child when it is an element
whose first child is a text node, nothing otherwise. -/
def partOf (set : Node) : List String :=
  if set.Type_ = 0 then [set.Data]
  else if set.Type_ = 1 then
    match set.Children with
    | c :: _ => if c.Type_ = 0 then [c.Data] else []
    | [] => []
  else []

/-- The entry of a `span` with children: the data of a single child as it
stands, else the unescaped concatenation of the parts of the children. -/
def spanEntry (E : Externals) (m : Node) : String :=
  match m.Children with
  | [c] => c.Data
  | cs => E.UnescapeString (String.join (cs.flatMap partOf))

/-! ## Example worlds with a cache -/

/-- A run with `-cached`: the cache file of 5 holds a product page, the cache
file of 6 does not parse, and no other identifier has a cache file; the site
answers every identifier with a product page. -/
def cachedWorld : World where
  cached := true
  Parse := parseExample
  Get := fun _ => Response.body pageBoot
  CheckOnDisc := fun id => id == 5 || id == 6
  ReadFile := fun id => if id = 5 then some pageBoot else if id = 6 then some pageBroken else none
  WriteFile := fun _ => true

/-! ## Example documents for the title -/

/-- A page with the given text as the first child of its `h2`. -/
def docTitled (title : String) : Node :=
  elem "html" [] [elem "body" []
    [elem "div" [⟨"id", "primary_block"⟩] [elem "h2" [] [text title]]]]

/-- The site on which no identifier is a product. -/
def siteGone (_ : Nat) : Response := Response.body pageGone

/-! # Theorems -/

/-! ## The title gate -/

/-- Without a match of the chain, `ParseTitle` returns its sentinel. -/
theorem parseTitle_no_match (E : Externals) (node : Node)
    (h : E.Apply "#primary_block" node = [] ∨
      ∃ p rest, E.Apply "#primary_block" node = p :: rest ∧ E.Apply "h2" p = []) :
    ParseTitle E node = some "No match" := by
  rcases h with h | ⟨p, rest, hp, hh⟩
  · simp [ParseTitle, selectorLoop, h]
  · simp [ParseTitle, selectorLoop, hp, hh]

/-- C1: a document in which the chain `#primary_block`, `h2` has no match
(no `#primary_block` node, or no `h2` under the first one) makes `GetData`
return the error "Not a valid product" with an empty byte slice; no record is
assembled, whatever the other extractors would give. -/
theorem C1_no_title_not_a_valid_product (E : Externals) (node : Node)
    (h : E.Apply "#primary_block" node = [] ∨
      ∃ p rest, E.Apply "#primary_block" node = p :: rest ∧ E.Apply "h2" p = []) :
    GetData E node = some ("", some "Not a valid product") ∧
      GetRecord E node = some (Except.error "Not a valid product") := by
  have ht := parseTitle_no_match E node h
  have hr : GetRecord E node = some (Except.error "Not a valid product") := by
    simp [GetRecord, ht]
  refine ⟨?_, hr⟩
  simp [GetData, hr]

/-- The page `docNoTitle` has no `#primary_block`, and `GetData` rejects it. -/
theorem C1_no_title_witness :
    stdExternals.Apply "#primary_block" docNoTitle = [] ∧
      GetData stdExternals docNoTitle = some ("", some "Not a valid product") ∧
      GetRecord stdExternals docNoTitle = some (Except.error "Not a valid product") :=
  ⟨rfl, C1_no_title_not_a_valid_product stdExternals docNoTitle (Or.inl rfl)⟩

/-- A record comes with a title that is not the sentinel. -/
theorem getRecord_ok (E : Externals) (node : Node) (r : Result)
    (h : GetRecord E node = some (Except.ok r)) :
    ParseTitle E node = some r.Name ∧ r.Name ≠ "No match" := by
  unfold GetRecord at h
  cases ht : ParseTitle E node with
  | none => simp [ht] at h
  | some t =>
    simp only [ht, Option.bind_eq_bind, Option.some_bind] at h
    by_cases hn : t = "No match"
    · simp [hn] at h
    · simp only [hn, if_false] at h
      simp only [Option.bind_eq_some] at h
      obtain ⟨c, _, f, _, d, _, x, _, y, _, g, _, hr⟩ := h
      simp at hr
      subst hr
      exact ⟨rfl, hn⟩

/-- A title other than the sentinel is the unescaped data of the first
child of the first `h2` under the first `#primary_block`. -/
theorem parseTitle_resolved (E : Externals) (node : Node) (t : String)
    (h : ParseTitle E node = some t) (hn : t ≠ "No match") :
    ∃ p ps q qs c cs, E.Apply "#primary_block" node = p :: ps ∧
      E.Apply "h2" p = q :: qs ∧ q.Children = c :: cs ∧ t = E.UnescapeString c.Data := by
  unfold ParseTitle at h
  cases hp : E.Apply "#primary_block" node with
  | nil =>
    simp [selectorLoop, hp] at h
    exact absurd h.symm hn
  | cons p ps =>
    cases hq : E.Apply "h2" p with
    | nil =>
      simp [selectorLoop, hp, hq] at h
      exact absurd h.symm hn
    | cons q qs =>
      cases hc : q.Children with
      | nil => simp [selectorLoop, hp, hq, hc] at h
      | cons c cs =>
        simp [selectorLoop, hp, hq, hc] at h
        exact ⟨p, ps, q, qs, c, cs, rfl, hq, hc, h.symm⟩

/-- The result of `GetData` without error is the encoding of a record. -/
theorem getData_ok (E : Externals) (node : Node) (buffer : String)
    (h : GetData E node = some (buffer, none)) :
    ∃ r, GetRecord E node = some (Except.ok r) ∧ E.Encode r = Except.ok buffer := by
  unfold GetData at h
  cases hr : GetRecord E node with
  | none => simp [hr] at h
  | some x =>
    cases x with
    | error e => simp [hr] at h
    | ok r =>
      cases he : E.Encode r with
      | error e => simp [hr, he] at h
      | ok b =>
        simp [hr, he] at h
        exact ⟨r, rfl, h ▸ he⟩

/-- C2 (amended): on every document on which `GetData` succeeds, the name of
the record is resolved: the chain `#primary_block`, `h2` matched, the name is
the unescaped data of the first child of that `h2`, and it is not the
sentinel "No match". (It can be the empty string.) -/
theorem C2_name_resolved (E : Externals) (node : Node) (buffer : String)
    (h : GetData E node = some (buffer, none)) :
    ∃ r, GetRecord E node = some (Except.ok r) ∧ E.Encode r = Except.ok buffer ∧
      r.Name ≠ "No match" ∧
      ∃ p ps q qs c cs, E.Apply "#primary_block" node = p :: ps ∧
        E.Apply "h2" p = q :: qs ∧ q.Children = c :: cs ∧
        r.Name = E.UnescapeString c.Data := by
  obtain ⟨r, hr, he⟩ := getData_ok E node buffer h
  obtain ⟨ht, hn⟩ := getRecord_ok E node r hr
  exact ⟨r, hr, he, hn, parseTitle_resolved E node r.Name ht hn⟩

/-- On `docBoot`, `GetData` succeeds and the name is resolved. -/
theorem C2_name_resolved_witness :
    GetData stdExternals docBoot = some (bootJson, none) ∧
      ∃ r, GetRecord stdExternals docBoot = some (Except.ok r) ∧
        stdExternals.Encode r = Except.ok bootJson ∧ r.Name ≠ "No match" ∧
        ∃ p ps q qs c cs, stdExternals.Apply "#primary_block" docBoot = p :: ps ∧
          stdExternals.Apply "h2" p = q :: qs ∧ q.Children = c :: cs ∧
          r.Name = stdExternals.UnescapeString c.Data :=
  ⟨rfl, C2_name_resolved stdExternals docBoot bootJson rfl⟩

/-- C2 (counterexample): on `docEmptyTitle`, whose `h2` has an empty comment
as first child, `GetData` succeeds and the name of the record is empty. -/
theorem C2_empty_name_emitted :
    GetData stdExternals docEmptyTitle = some (emptyTitleJson, none) ∧
      ∃ r, GetRecord stdExternals docEmptyTitle = some (Except.ok r) ∧ r.Name = "" :=
  ⟨by decide, _, rfl, rfl⟩

/-! ## Features -/

/-- C3 (amended): for a feature row whose `.feature_name` match has a first
child and whose first `.feature_value` subtree contains exactly one
`.editable` sub-node, with a first child, `ExtractFeature` returns as value
the raw data of that first child (not unescaped, not trimmed), whatever
`.available` and `.not_available` markers the subtree contains. -/
theorem C3_editable_value (E : Externals) (row name c fv e d : Node)
    (names cs fvs ds : List Node)
    (hname : E.Apply ".feature_name" row = name :: names) (hc : name.Children = c :: cs)
    (hfv : E.Apply ".feature_value" row = fv :: fvs)
    (he : E.Apply ".editable" fv = [e]) (hd : e.Children = d :: ds) :
    ExtractFeature E row = some (E.UnescapeString c.Data, d.Data) := by
  simp [ExtractFeature, CheckForEditable, hname, hc, hfv, he, hd]

/-- On `rowEditable` the value is the text of the editable field as it
stands, the `.available` marker notwithstanding. -/
theorem C3_editable_value_witness :
    ExtractFeature stdExternals rowEditable = some ("Size", " 42&nbsp;EU ") :=
  C3_editable_value stdExternals rowEditable (cell "feature_name" [text "Size"])
    (text "Size")
    (cell "feature_value" [span "editable" [text " 42&nbsp;EU "], span "available" []])
    (span "editable" [text " 42&nbsp;EU "]) (text " 42&nbsp;EU ") [] [] [] []
    rfl rfl rfl rfl rfl

/-- C3 (counterexample): the value cell of `rowTwoEditable` contains two
`.editable` sub-nodes, with the texts "A" and "B"; the value returned is
neither: it is the data of the first child of the cell, the tag `span`. -/
theorem C3_two_editable :
    (∃ fv fvs, stdExternals.Apply ".feature_value" rowTwoEditable = fv :: fvs ∧
      (stdExternals.Apply ".editable" fv).map (fun e => e.Children.map Node.Data) =
        [["A"], ["B"]]) ∧
    ExtractFeature stdExternals rowTwoEditable = some ("Size", "span") :=
  ⟨⟨_, _, rfl, rfl⟩, rfl⟩

/-- C4 (amended): for a feature row whose `.feature_name` match has a first
child and whose first `.feature_value` subtree contains no `.editable`
sub-node and exactly one `.not_available` marker, `ExtractFeature` returns
the value "Nedostupno". -/
theorem C4_not_available_value (E : Externals) (row name c fv : Node)
    (names cs fvs : List Node)
    (hname : E.Apply ".feature_name" row = name :: names) (hc : name.Children = c :: cs)
    (hfv : E.Apply ".feature_value" row = fv :: fvs)
    (he : E.Apply ".editable" fv = [])
    (hna : (E.Apply ".not_available" fv).length = 1) :
    ExtractFeature E row = some (E.UnescapeString c.Data, "Nedostupno") := by
  simp [ExtractFeature, CheckForEditable, CheckForAvailable, hname, hc, hfv, he, hna]

/-- On `rowUnavailable` the value is "Nedostupno". -/
theorem C4_not_available_value_witness :
    ExtractFeature stdExternals rowUnavailable = some ("Gore-Tex", "Nedostupno") :=
  C4_not_available_value stdExternals rowUnavailable (cell "feature_name" [text "Gore-Tex"])
    (text "Gore-Tex") (cell "feature_value" [span "not_available" []]) [] [] []
    rfl rfl rfl rfl rfl

/-- C4 (counterexample): the value cell of `rowTwoUnavailable` contains no
`.editable` sub-node and two `.not_available` markers; the value returned is
not "Nedostupno" but the data of the first child of the cell. -/
theorem C4_two_not_available :
    (∃ fv fvs, stdExternals.Apply ".feature_value" rowTwoUnavailable = fv :: fvs ∧
      stdExternals.Apply ".editable" fv = [] ∧
      (stdExternals.Apply ".not_available" fv).length = 2) ∧
    ExtractFeature stdExternals rowTwoUnavailable = some ("Gore-Tex", "span") :=
  ⟨⟨_, _, rfl, rfl, rfl⟩, rfl⟩

/-- C5 (amended): for a feature row whose `.feature_name` match has a first
child and whose first `.feature_value` subtree contains no `.editable`
sub-node, a number of `.not_available` markers other than one, and exactly
one `.available` marker, `ExtractFeature` returns the value "Dostupno". -/
theorem C5_available_value (E : Externals) (row name c fv : Node)
    (names cs fvs : List Node)
    (hname : E.Apply ".feature_name" row = name :: names) (hc : name.Children = c :: cs)
    (hfv : E.Apply ".feature_value" row = fv :: fvs)
    (he : E.Apply ".editable" fv = [])
    (hna : (E.Apply ".not_available" fv).length ≠ 1)
    (ha : (E.Apply ".available" fv).length = 1) :
    ExtractFeature E row = some (E.UnescapeString c.Data, "Dostupno") := by
  simp [ExtractFeature, CheckForEditable, CheckForAvailable, hname, hc, hfv, he, hna, ha]

/-- On `rowAvailable` the value is "Dostupno". -/
theorem C5_available_value_witness :
    ExtractFeature stdExternals rowAvailable = some ("Vibram", "Dostupno") :=
  C5_available_value stdExternals rowAvailable (cell "feature_name" [text "Vibram"])
    (text "Vibram") (cell "feature_value" [span "available" []]) [] [] []
    rfl rfl rfl rfl (by decide) rfl

/-- C5 (counterexample): the value cells of `rowBothMarkers` and of
`rowTwoAvailable` contain no `.editable` sub-node and an `.available` marker.
With one `.not_available` marker beside it the value is "Nedostupno"; with
two `.available` markers it is the data of the first child of the cell. -/
theorem C5_available_not_dostupno :
    ((∃ fv fvs, stdExternals.Apply ".feature_value" rowBothMarkers = fv :: fvs ∧
        stdExternals.Apply ".editable" fv = [] ∧
        (stdExternals.Apply ".available" fv).length = 1) ∧
      ExtractFeature stdExternals rowBothMarkers = some ("Vibram", "Nedostupno")) ∧
    ((∃ fv fvs, stdExternals.Apply ".feature_value" rowTwoAvailable = fv :: fvs ∧
        stdExternals.Apply ".editable" fv = [] ∧
        (stdExternals.Apply ".available" fv).length = 2) ∧
      ExtractFeature stdExternals rowTwoAvailable = some ("Vibram", "span")) :=
  ⟨⟨⟨_, _, rfl, rfl, rfl⟩, rfl⟩, ⟨⟨_, _, rfl, rfl, rfl⟩, rfl⟩⟩

/-! ## Images -/

/-- The loop of `ParseThumbs` appends one pair per element. -/
theorem thumbsLoop_eq (url : String) (imgs : List Node) (baseSrc : String)
    (list : List String) :
    thumbsLoop url imgs baseSrc list =
      list ++ (thumbSrcs imgs baseSrc).flatMap (thumbPair url) := by
  induction imgs generalizing baseSrc list with
  | nil => simp [thumbsLoop, thumbSrcs]
  | cons res rest ih =>
    simp [thumbsLoop, thumbSrcs, ih, thumbPair, List.append_assoc]

/-- One source per `img` element. -/
theorem thumbSrcs_length (imgs : List Node) (baseSrc : String) :
    (thumbSrcs imgs baseSrc).length = imgs.length := by
  induction imgs generalizing baseSrc with
  | nil => rfl
  | cons res rest ih => simp [thumbSrcs, ih]

/-- The list of `ParseImages` is the primary pair followed by the pairs of
the thumbnails. -/
theorem parseImages_eq (E : Externals) (node : Node) :
    ParseImages E node =
      primaryPair E node ++ (thumbSrcs (thumbImgs E node) "").flatMap (thumbPair coreUrl) := by
  unfold ParseImages primaryPair thumbImgs
  cases E.Apply "#thumbs_list_frame" node with
  | nil => simp [thumbSrcs]
  | cons r rest => simp [ParseThumbs, thumbsLoop_eq]

/-- C6: the list of `ParseImages` is the primary pair (two entries when
`#bigpic` matches, none otherwise) followed by one pair of adjacent entries
per `img` element under the first `#thumbs_list_frame` match, in document
order; its length is twice the number of primary images (one or none) plus
twice the number of those `img` elements. -/
theorem C6_images_layout (E : Externals) (node : Node) :
    ParseImages E node =
        primaryPair E node ++
          (thumbSrcs (thumbImgs E node) "").flatMap (thumbPair coreUrl) ∧
      (primaryPair E node).length =
        2 * (if (E.Apply "#bigpic" node).isEmpty then 0 else 1) ∧
      (thumbSrcs (thumbImgs E node) "").length = (thumbImgs E node).length ∧
      (∀ s, (thumbPair coreUrl s).length = 2) ∧
      (ParseImages E node).length =
        2 * (if (E.Apply "#bigpic" node).isEmpty then 0 else 1) +
          2 * (thumbImgs E node).length := by
  have hp : (primaryPair E node).length =
      2 * (if (E.Apply "#bigpic" node).isEmpty then 0 else 1) := by
    unfold primaryPair
    cases E.Apply "#bigpic" node <;> simp
  have hlen : ∀ l : List String,
      (l.flatMap (thumbPair coreUrl)).length = 2 * l.length := by
    intro l
    induction l with
    | nil => rfl
    | cons s rest ih =>
      simp only [List.flatMap_cons, List.length_append, ih, thumbPair, List.length_cons,
        List.length_nil]
      omega
  refine ⟨parseImages_eq E node, hp, thumbSrcs_length _ _, fun _ => rfl, ?_⟩
  rw [parseImages_eq, List.length_append, hp, hlen, thumbSrcs_length]

/-- C7 (the code at the failing input): the second `img` of `frameStale` has
no `src` attribute, and its pair repeats the source of the first `img`: with
another first element the pair of the same second element is another. -/
theorem C7_stale_src :
    ParseThumbs stdExternals (frameStale "/img/medium/1.jpg") coreUrl =
        ["http://keindl-sport.hr/img/medium/1.jpg",
         "http://keindl-sport.hr/img/thickbox/1.jpg",
         "http://keindl-sport.hr/img/medium/1.jpg",
         "http://keindl-sport.hr/img/thickbox/1.jpg"] ∧
      ParseThumbs stdExternals (frameStale "/img/medium/9.jpg") coreUrl =
        ["http://keindl-sport.hr/img/medium/9.jpg",
         "http://keindl-sport.hr/img/thickbox/9.jpg",
         "http://keindl-sport.hr/img/medium/9.jpg",
         "http://keindl-sport.hr/img/thickbox/9.jpg"] ∧
      (stdExternals.Apply "img" (frameStale "/img/medium/1.jpg")).drop 1 =
        (stdExternals.Apply "img" (frameStale "/img/medium/9.jpg")).drop 1 :=
  ⟨rfl, rfl, rfl⟩

/-- An attribute list whose `src` attributes all have the value `s` leaves
`s` in `baseSrc`. -/
theorem srcLoop_const (attrs : List Attribute) (s : String)
    (hall : ∀ a ∈ attrs, a.Name = "src" → a.Value = s) : srcLoop attrs s = s := by
  induction attrs with
  | nil => rfl
  | cons a rest ih =>
    have hrest : ∀ b ∈ rest, b.Name = "src" → b.Value = s :=
      fun b hb => hall b (List.mem_cons_of_mem a hb)
    by_cases hn : a.Name = "src"
    · simp [srcLoop, hn, hall a (List.mem_cons_self a rest) hn, ih hrest]
    · simp [srcLoop, hn, ih hrest]

/-- The loop over the attributes finds the value of the `src` attribute. -/
theorem srcLoop_src (attrs : List Attribute) (s baseSrc : String)
    (hs : ∃ a ∈ attrs, a.Name = "src")
    (hall : ∀ a ∈ attrs, a.Name = "src" → a.Value = s) : srcLoop attrs baseSrc = s := by
  induction attrs generalizing baseSrc with
  | nil => simp at hs
  | cons a rest ih =>
    have hrest : ∀ b ∈ rest, b.Name = "src" → b.Value = s :=
      fun b hb => hall b (List.mem_cons_of_mem a hb)
    by_cases hn : a.Name = "src"
    · simp [srcLoop, hn, hall a (List.mem_cons_self a rest) hn, srcLoop_const rest s hrest]
    · obtain ⟨b, hb, hbn⟩ := hs
      have hb2 : b ∈ rest := by
        rcases List.mem_cons.mp hb with h | h
        · exact absurd (h ▸ hbn) hn
        · exact h
      simp [srcLoop, hn, ih baseSrc ⟨b, hb2, hbn⟩ hrest]

/-- A text without an occurrence of `old` is left as it is. -/
theorem replaceOnceChars_absent (old new s : List Char) (h : ¬ old <:+: s) :
    replaceOnceChars old new s = s := by
  induction s with
  | nil =>
    have : old ≠ [] := fun e => h (e ▸ List.infix_refl _)
    simp [replaceOnceChars, this]
  | cons c cs ih =>
    have hp : ¬ old <+: c :: cs := fun hp => h hp.isInfix
    have hcs : ¬ old <:+: cs := fun hi => h (hi.trans (List.suffix_cons c cs).isInfix)
    simp [replaceOnceChars, hp, ih hcs]

/-- The occurrence of `old` that is replaced is the first one. -/
theorem replaceOnceChars_first (old new pre post : List Char)
    (h : ¬ old <:+: pre ++ old.dropLast) :
    replaceOnceChars old new (pre ++ old ++ post) = pre ++ new ++ post := by
  induction pre with
  | nil =>
    cases old with
    | nil => exact absurd List.nil_infix h
    | cons o os =>
      have hpre : (o :: os).isPrefixOf (o :: (os ++ post)) = true := by
        rw [List.isPrefixOf_iff_prefix, ← List.cons_append]
        exact List.prefix_append _ _
      show replaceOnceChars (o :: os) new (o :: (os ++ post)) = new ++ post
      rw [replaceOnceChars, if_pos hpre, ← List.cons_append, List.drop_left]
  | cons p pre ih =>
    have hih : ¬ old <:+: pre ++ old.dropLast :=
      fun hi => h (hi.trans (List.suffix_cons p _).isInfix)
    have hp : ¬ old.isPrefixOf (p :: (pre ++ old ++ post)) = true := by
      rw [List.isPrefixOf_iff_prefix]
      intro hp
      have h2 : (p :: pre) ++ old.dropLast <+: p :: (pre ++ old ++ post) := by
        have : (p :: pre) ++ old.dropLast <+: (p :: pre) ++ (old ++ post) :=
          (List.prefix_append_right_inj _).mpr
            ((List.dropLast_prefix old).trans (List.prefix_append old post))
        simpa [List.append_assoc] using this
      have hlen : old.length ≤ ((p :: pre) ++ old.dropLast).length := by
        simp only [List.length_append, List.length_cons, List.length_dropLast]
        omega
      exact h (List.prefix_of_prefix_length_le hp h2 hlen).isInfix
    show replaceOnceChars old new (p :: (pre ++ old ++ post)) = p :: (pre ++ new ++ post)
    rw [replaceOnceChars, if_neg hp, ih hih]

/-- C8 (amended): for a document whose first `#bigpic` node has a `src`
attribute `s`, the first two entries of `ParseImages` are the base URL
followed by `s`, and the base URL followed by `s` with the first occurrence
of "large" replaced by "thickbox" (by `s` itself without an occurrence); for
`s = "/img/large/1.jpg"` they are "http://keindl-sport.hr/img/large/1.jpg"
and "http://keindl-sport.hr/img/thickbox/1.jpg". -/
theorem C8_primary_pair (E : Externals) (node r : Node) (rest : List Node) (s : String)
    (h : E.Apply "#bigpic" node = r :: rest)
    (hs : ∃ a ∈ r.Attr, a.Name = "src")
    (hall : ∀ a ∈ r.Attr, a.Name = "src" → a.Value = s) :
    (ParseImages E node).take 2 =
        [coreUrl ++ s, coreUrl ++ ReplaceOnce s "large" "thickbox"] ∧
      (∀ pre post : List Char, s.data = pre ++ "large".data ++ post →
        ¬ "large".data <:+: pre ++ "larg".data →
        ReplaceOnce s "large" "thickbox" = String.mk (pre ++ "thickbox".data ++ post)) ∧
      (¬ "large".data <:+: s.data → ReplaceOnce s "large" "thickbox" = s) ∧
      (s = "/img/large/1.jpg" →
        (ParseImages E node).take 2 =
          ["http://keindl-sport.hr/img/large/1.jpg",
           "http://keindl-sport.hr/img/thickbox/1.jpg"]) := by
  have hsrc : srcLoop r.Attr "" = s := srcLoop_src r.Attr s "" hs hall
  have htake : (ParseImages E node).take 2 =
      [coreUrl ++ s, coreUrl ++ ReplaceOnce s "large" "thickbox"] := by
    rw [parseImages_eq]
    simp [primaryPair, h, hsrc]
  refine ⟨htake, ?_, ?_, ?_⟩
  · intro pre post hdata hfirst
    unfold ReplaceOnce
    rw [hdata]
    exact congrArg String.mk (replaceOnceChars_first _ _ pre post hfirst)
  · intro habs
    unfold ReplaceOnce
    rw [replaceOnceChars_absent _ _ _ habs]
  · intro hs1
    rw [htake, hs1]
    rfl

/-- On `docBoot` the primary image has the source "/img/large/1.jpg". -/
theorem C8_primary_pair_witness :
    (ParseImages stdExternals docBoot).take 2 =
        [coreUrl ++ "/img/large/1.jpg",
         coreUrl ++ ReplaceOnce "/img/large/1.jpg" "large" "thickbox"] ∧
      (ParseImages stdExternals docBoot).take 2 =
        ["http://keindl-sport.hr/img/large/1.jpg",
         "http://keindl-sport.hr/img/thickbox/1.jpg"] :=
  have h := C8_primary_pair stdExternals docBoot
    (elem "img" [⟨"id", "bigpic"⟩, ⟨"src", "/img/large/1.jpg"⟩] []) [] "/img/large/1.jpg"
    rfl ⟨⟨"src", "/img/large/1.jpg"⟩, by simp [elem, Node.Attr], rfl⟩
    (by
      intro a ha hn
      simp only [elem, Node.Attr, List.mem_cons, List.mem_singleton, List.mem_nil_iff,
        or_false] at ha
      rcases ha with ha | ha
      · rw [ha] at hn
        exact absurd hn (by decide)
      · rw [ha])
  ⟨h.1, h.2.2.2 rfl⟩

/-- C8 (counterexample): the primary image of `docTwoLarge` has the source
"/img/large/large_1.jpg"; the second entry of `ParseImages` still contains
"large". -/
theorem C8_large_remains :
    (stdExternals.Apply "#bigpic" docTwoLarge).map Node.Attr =
        [[⟨"id", "bigpic"⟩, ⟨"src", "/img/large/large_1.jpg"⟩]] ∧
      (ParseImages stdExternals docTwoLarge).take 2 =
        ["http://keindl-sport.hr/img/large/large_1.jpg",
         "http://keindl-sport.hr/img/thickbox/large_1.jpg"] ∧
      ReplaceOnce "/img/large/large_1.jpg" "large" "thickbox" = "/img/thickbox/large_1.jpg" ∧
      containsChars "large".data "/img/thickbox/large_1.jpg".data = true :=
  ⟨rfl, rfl, rfl, rfl⟩

/-! ## The range loop -/

/-- C9 (the code at the failing input): with `-min=5 -max=7`, the products 5
and 6 valid and the page of 7 not a product, the buffer handed to
`WriteJsonOutput` ends with a comma after the record of 6: the comma written
after a record depends on `i < *max` only, not on a record following. -/
theorem C9_trailing_comma :
    (GetProduct (exampleWorld siteWithout7) stdExternals 5).2 = some (bootJson, none) ∧
      (GetProduct (exampleWorld siteWithout7) stdExternals 6).2 = some (bootJson, none) ∧
      (GetProduct (exampleWorld siteWithout7) stdExternals 7).2 =
        some ("", some "Not a valid product") ∧
      program (exampleWorld siteWithout7) stdExternals 0 5 7 4 =
        Run.mk [5, 6, 7]
          (Outcome.written
            ("\x7b\"Products\":[" ++ bootJson ++ "," ++ bootJson ++ "," ++ "]\x7d")) :=
  ⟨rfl, rfl, rfl, rfl⟩

/-- Below `2 ^ 64 - 1` the calls of the loop are consecutive identifiers from
the counter on, none above `max`. -/
theorem rangeLoop_calls (gp : Nat → Option (String × Option String)) (max : Nat)
    (hmax : max + 1 < 2 ^ 64) (fuel i : Nat) (chunks : String) (calls : List Nat) :
    ∃ n, n ≤ max + 1 - i ∧
      (rangeLoop gp max fuel i chunks calls).calls = calls ++ List.range' i n := by
  induction fuel generalizing i chunks calls with
  | zero => exact ⟨0, Nat.zero_le _, by simp [rangeLoop]⟩
  | succ fuel ih =>
    by_cases hi : i ≤ max
    · cases hg : gp i with
      | none => exact ⟨1, by omega, by simp [rangeLoop, hi, hg]⟩
      | some x =>
        obtain ⟨data, err⟩ := x
        have hmod : (i + 1) % 2 ^ 64 = i + 1 := Nat.mod_eq_of_lt (by omega)
        obtain ⟨n, hn, hc⟩ := ih (i + 1)
          (if err.isSome then chunks else (chunks ++ data) ++ (if i < max then "," else ""))
          (calls ++ [i])
        refine ⟨n + 1, by omega, ?_⟩
        simp only [rangeLoop, hi, if_true, hg, hmod]
        rw [hc, List.range'_succ, List.append_assoc]
        rfl
    · exact ⟨0, Nat.zero_le _, by simp [rangeLoop, hi]⟩

/-- Below `2 ^ 64 - 1`, when every call returns, the loop calls `GetProduct`
with every identifier from the counter to `max` and the output is written. -/
theorem rangeLoop_complete (gp : Nat → Option (String × Option String)) (max : Nat)
    (hmax : max + 1 < 2 ^ 64) (fuel i : Nat) (chunks : String) (calls : List Nat)
    (hgp : ∀ id, i ≤ id → id ≤ max → gp id ≠ none) (hfuel : max + 1 - i < fuel) :
    (rangeLoop gp max fuel i chunks calls).calls = calls ++ List.range' i (max + 1 - i) ∧
      ∃ data, (rangeLoop gp max fuel i chunks calls).outcome = Outcome.written data := by
  induction fuel generalizing i chunks calls with
  | zero => omega
  | succ fuel ih =>
    by_cases hi : i ≤ max
    · cases hg : gp i with
      | none => exact absurd hg (hgp i (Nat.le_refl i) hi)
      | some x =>
        obtain ⟨data, err⟩ := x
        have hmod : (i + 1) % 2 ^ 64 = i + 1 := Nat.mod_eq_of_lt (by omega)
        obtain ⟨hc, ho⟩ := ih (i + 1)
          (if err.isSome then chunks else (chunks ++ data) ++ (if i < max then "," else ""))
          (calls ++ [i]) (fun id h1 h2 => hgp id (by omega) h2) (by omega)
        have hlen : max + 1 - i = (max + 1 - (i + 1)) + 1 := by omega
        simp only [rangeLoop, hi, if_true, hg, hmod]
        refine ⟨?_, ho⟩
        rw [hc, hlen, List.range'_succ, List.append_assoc]
        rfl
    · have hz : max + 1 - i = 0 := by omega
      simp [rangeLoop, hi, hz]

/-- Below `2 ^ 64 - 1`, the loop stops at the first identifier whose call
ends the process. -/
theorem rangeLoop_exit (gp : Nat → Option (String × Option String)) (max k : Nat)
    (hmax : max + 1 < 2 ^ 64) (hk : k ≤ max) (hgk : gp k = none)
    (fuel i : Nat) (chunks : String) (calls : List Nat) (hik : i ≤ k)
    (hgp : ∀ id, i ≤ id → id < k → gp id ≠ none) (hfuel : k - i < fuel) :
    rangeLoop gp max fuel i chunks calls =
      Run.mk (calls ++ List.range' i (k + 1 - i)) Outcome.exited := by
  induction fuel generalizing i chunks calls with
  | zero => omega
  | succ fuel ih =>
    have hi : i ≤ max := by omega
    by_cases hek : i = k
    · subst hek
      have hone : i + 1 - i = 1 := by omega
      simp [rangeLoop, hi, hgk, hone]
    · cases hg : gp i with
      | none => exact absurd hg (hgp i (Nat.le_refl i) (by omega))
      | some x =>
        obtain ⟨data, err⟩ := x
        have hmod : (i + 1) % 2 ^ 64 = i + 1 := Nat.mod_eq_of_lt (by omega)
        have hlen : k + 1 - i = (k + 1 - (i + 1)) + 1 := by omega
        simp only [rangeLoop, hi, if_true, hg, hmod]
        rw [ih (i + 1) _ (calls ++ [i]) (by omega) (fun id h1 h2 => hgp id (by omega) h2)
          (by omega), hlen, List.range'_succ, List.append_assoc]
        rfl

/-- C10 (amended): in range mode (`single = 0`) with `max` below `2 ^ 64 - 1`,
no identifier outside `[min, max]` is ever passed to `GetProduct`; when every
call returns to the loop, the identifiers passed are exactly `min`, `min + 1`,
..., `max` in ascending order, each once, whichever calls return an error, and
the output is written; when a call ends the process (`log.Fatalf` or a
panic), the identifiers passed are `min`, ..., up to that one and no other;
when `min > max` nothing is fetched. -/
theorem C10_range_calls (gp : Nat → Option (String × Option String)) (min max : Nat)
    (hmax : max + 1 < 2 ^ 64) :
    (∀ fuel id, id ∈ (main gp 0 min max fuel).calls → min ≤ id ∧ id ≤ max) ∧
      ((∀ id, min ≤ id → id ≤ max → gp id ≠ none) →
        ∀ fuel, max + 1 - min < fuel →
          (main gp 0 min max fuel).calls = List.range' min (max + 1 - min) ∧
            ∃ data, (main gp 0 min max fuel).outcome = Outcome.written data) ∧
      (∀ k, min ≤ k → k ≤ max → gp k = none →
        (∀ id, min ≤ id → id < k → gp id ≠ none) →
        ∀ fuel, k - min < fuel →
          main gp 0 min max fuel = Run.mk (List.range' min (k + 1 - min)) Outcome.exited) ∧
      (max < min → ∀ fuel, (main gp 0 min max fuel).calls = []) := by
  have hmain : ∀ fuel, main gp 0 min max fuel =
      rangeLoop gp max fuel min "\x7b\"Products\":[" [] := fun fuel => rfl
  have hbound : ∀ fuel id, id ∈ (main gp 0 min max fuel).calls → min ≤ id ∧ id ≤ max := by
    intro fuel id hid
    obtain ⟨n, hn, hc⟩ := rangeLoop_calls gp max hmax fuel min "\x7b\"Products\":[" []
    rw [hmain, hc, List.nil_append, List.mem_range'_1] at hid
    omega
  refine ⟨hbound, ?_, ?_, ?_⟩
  · intro hgp fuel hfuel
    have h := rangeLoop_complete gp max hmax fuel min "\x7b\"Products\":[" [] hgp hfuel
    rw [hmain]
    simpa using h
  · intro k hk1 hk2 hgk hgp fuel hfuel
    rw [hmain, rangeLoop_exit gp max k hmax hk2 hgk fuel min _ [] hk1 hgp hfuel]
    simp
  · intro hlt fuel
    apply List.eq_nil_iff_forall_not_mem.mpr
    intro id hid
    have := hbound fuel id hid
    omega

/-- With `-min=5 -max=7` on the site on which 7 is not a product, the calls
are those for 5, 6 and 7. -/
theorem C10_range_calls_witness :
    7 + 1 < 2 ^ 64 ∧
      (program (exampleWorld siteWithout7) stdExternals 0 5 7 4).calls = [5, 6, 7] :=
  ⟨by norm_num,
    ((C10_range_calls (fun id => (GetProduct (exampleWorld siteWithout7) stdExternals id).2)
      5 7 (by norm_num)).2.1
      (by
        intro id h1 h2
        interval_cases id <;> exact (fun h => nomatch h))
      4 (by norm_num)).1⟩

/-- C10 (counterexample): with `-min=5 -max=7` and the site unreachable for
identifier 5, the call for 5 ends the process in `log.Fatalf`: the
identifiers 6 and 7 are never passed to `GetProduct`. -/
theorem C10_fatal_stops_range :
    (GetProduct (exampleWorld siteDownAt5) stdExternals 5).2 = none ∧
      program (exampleWorld siteDownAt5) stdExternals 0 5 7 4 =
        Run.mk [5] Outcome.exited ∧
      (program (exampleWorld siteDownAt5) stdExternals 0 5 7 4).calls ≠ [5, 6, 7] :=
  ⟨rfl, rfl, by decide⟩

/-! ## Failures inside the range -/

/-- The function `GetProduct` from the node it works on. -/
theorem getProduct_eq (W : World) (E : Externals) (id : Nat) :
    GetProduct W E id =
      match loadNode W id with
      | (events, none) => (events, none)
      | (events, some none) =>
        (events, some ("", some ("Could not parse node from product id: " ++ toString id)))
      | (events, some (some node)) => (events, GetData E node) := rfl

/-- C11 (amended): an identifier whose call of `GetProduct` returns an error
(the body of the response could not be read, or the page is not a valid
product) does not abort the run: for `max` below `2 ^ 64 - 1`, when no call
ends the process, `GetProduct` is called with every identifier of the range
and the output is written after the last one; an encoding error is returned
as well. A cache file that does not parse is not a failure, the page is
fetched. A transport error of `http.Get`, a parse error of the fetched page
and a failed write of the cache file end the process. -/
theorem C11_returned_errors_are_skipped (W : World) (E : Externals) (min max : Nat)
    (hmax : max + 1 < 2 ^ 64)
    (hret : ∀ id, min ≤ id → id ≤ max → (GetProduct W E id).2 ≠ none) :
    (∀ fuel, max + 1 - min < fuel →
        (program W E 0 min max fuel).calls = List.range' min (max + 1 - min) ∧
          ∃ data, (program W E 0 min max fuel).outcome = Outcome.written data) ∧
      (∀ id, (loadNode W id).2 = some none →
        (GetProduct W E id).2 =
          some ("", some ("Could not parse node from product id: " ++ toString id))) ∧
      (∀ id node, (loadNode W id).2 = some (some node) →
        (E.Apply "#primary_block" node = [] ∨
          ∃ p rest, E.Apply "#primary_block" node = p :: rest ∧ E.Apply "h2" p = []) →
        (GetProduct W E id).2 = some ("", some "Not a valid product")) ∧
      (∀ id, W.Get id = Response.unreadable → (fetchAndSleep W id).2 = some none) ∧
      (∀ id, W.cached = true → GetHtmlNodeFromFile W id = none →
        loadNode W id = fetchAndSleep W id) ∧
      (∀ id, W.Get id = Response.failed → (fetchAndSleep W id).2 = none) ∧
      (∀ id buffer, W.Get id = Response.body buffer → W.Parse buffer = none →
        (fetchAndSleep W id).2 = none) ∧
      (∀ id buffer node, W.Get id = Response.body buffer → W.Parse buffer = some node →
        W.WriteFile id = false → (fetchAndSleep W id).2 = none) ∧
      (∀ id node r e, (loadNode W id).2 = some (some node) →
        GetRecord E node = some (Except.ok r) → E.Encode r = Except.error e →
        (GetProduct W E id).2 = some ("", some e)) := by
  refine ⟨?_, ?_, ?_, ?_, ?_, ?_, ?_, ?_, ?_⟩
  · intro fuel hfuel
    have h := rangeLoop_complete (fun id => (GetProduct W E id).2) max hmax fuel min
      "\x7b\"Products\":[" [] hret hfuel
    simpa [program, main] using h
  · intro id h
    rw [getProduct_eq]
    rcases hl : loadNode W id with ⟨events, node⟩
    rw [hl] at h
    simp only at h
    subst h
    rfl
  · intro id node h hchain
    rw [getProduct_eq]
    rcases hl : loadNode W id with ⟨events, n⟩
    rw [hl] at h
    simp only at h
    subst h
    simp only []
    have hd : GetData E node = some ("", some "Not a valid product") := by
      have ht := parseTitle_no_match E node hchain
      simp [GetData, GetRecord, ht]
    exact hd
  · intro id h
    simp [fetchAndSleep, GetHtmlNodeFromUrl, h]
  · intro id hc hf
    simp [loadNode, hc, hf]
  · intro id h
    simp [fetchAndSleep, GetHtmlNodeFromUrl, h]
  · intro id buffer h hp
    simp [fetchAndSleep, GetHtmlNodeFromUrl, h, hp]
  · intro id buffer node h hp hw
    simp [fetchAndSleep, GetHtmlNodeFromUrl, h, hp, hw]
  · intro id node r e h hr he
    rw [getProduct_eq]
    rcases hl : loadNode W id with ⟨events, n⟩
    rw [hl] at h
    simp only at h
    subst h
    simp [GetData, hr, he]

/-- With `-min=5 -max=7` on the site on which 7 is not a product, the call
for 7 returns an error and the output is written. -/
theorem C11_returned_errors_witness :
    7 + 1 < 2 ^ 64 ∧
      (GetProduct (exampleWorld siteWithout7) stdExternals 7).2 =
        some ("", some "Not a valid product") ∧
      (program (exampleWorld siteWithout7) stdExternals 0 5 7 4).calls = [5, 6, 7] ∧
      ∃ data, (program (exampleWorld siteWithout7) stdExternals 0 5 7 4).outcome =
        Outcome.written data :=
  have h := (C11_returned_errors_are_skipped (exampleWorld siteWithout7) stdExternals 5 7
    (by norm_num)
    (by
      intro id h1 h2
      interval_cases id <;> exact (fun h => nomatch h))).1 4 (by norm_num)
  ⟨by norm_num, rfl, h.1, h.2⟩

/-- C11 (counterexample): with `-min=5 -max=7`, a transport error for
identifier 6, or a page of 6 that does not parse, ends the process in
`log.Fatalf`: identifier 7 is not processed and no output is written. -/
theorem C11_fatal_aborts_run :
    siteDownAt6 6 = Response.failed ∧
      program (exampleWorld siteDownAt6) stdExternals 0 5 7 4 =
        Run.mk [5, 6] Outcome.exited ∧
      siteBrokenAt6 6 = Response.body pageBroken ∧
      parseExample pageBroken = none ∧
      program (exampleWorld siteBrokenAt6) stdExternals 0 5 7 4 =
        Run.mk [5, 6] Outcome.exited :=
  ⟨rfl, rfl, rfl, rfl, rfl⟩

/-! ## Single mode -/

/-- C12: in single mode (`single > 0`), `GetProduct` is called exactly once,
with the identifier `single`, whatever `min` and `max` are; the output is
written only when that call succeeds, and then it holds exactly the record of
that identifier; when the call fails nothing is written. -/
theorem C12_single_mode (gp : Nat → Option (String × Option String))
    (single min max fuel : Nat) (h : 0 < single) :
    (main gp single min max fuel).calls = [single] ∧
      (∀ data, gp single = some (data, none) →
        (main gp single min max fuel).outcome =
          Outcome.written (("\x7b\"Products\":[" ++ data) ++ "]\x7d")) ∧
      (∀ data e, gp single = some (data, some e) →
        (main gp single min max fuel).outcome = Outcome.returned) ∧
      (gp single = none → (main gp single min max fuel).outcome = Outcome.exited) ∧
      main gp single min max fuel = main gp single 0 0 0 := by
  have hs : single > 0 := h
  refine ⟨?_, ?_, ?_, ?_, ?_⟩
  · unfold main
    simp only [hs, if_true]
    rcases hg : gp single with _ | ⟨data, err⟩
    · rfl
    · cases err <;> rfl
  · intro data hg
    simp [main, hs, hg]
  · intro data e hg
    simp [main, hs, hg]
  · intro hg
    simp [main, hs, hg]
  · simp [main, hs]

/-- With `-single=5` on the site on which 7 is not a product, the output
holds the record of 5; with `-single=7` nothing is written. -/
theorem C12_single_mode_witness :
    (program (exampleWorld siteWithout7) stdExternals 5 1 2100 0).calls = [5] ∧
      (program (exampleWorld siteWithout7) stdExternals 5 1 2100 0).outcome =
        Outcome.written (("\x7b\"Products\":[" ++ bootJson) ++ "]\x7d") ∧
      (program (exampleWorld siteWithout7) stdExternals 7 1 2100 0).outcome =
        Outcome.returned :=
  ⟨(C12_single_mode (fun id => (GetProduct (exampleWorld siteWithout7) stdExternals id).2)
      5 1 2100 0 (by norm_num)).1,
    (C12_single_mode (fun id => (GetProduct (exampleWorld siteWithout7) stdExternals id).2)
      5 1 2100 0 (by norm_num)).2.1 bootJson rfl,
    (C12_single_mode (fun id => (GetProduct (exampleWorld siteWithout7) stdExternals id).2)
      7 1 2100 0 (by norm_num)).2.2.1 "" "Not a valid product" rfl⟩

/-! ## Extras -/

/-- C13 (the code at the failing input): a child of the one `#attributes`
node that has a child node but not the slots the code indexes makes
`ParseExtras` panic (index out of range): with one child node only, and with
a label but no fourth child; the valid group before it is lost with the
rest, and `GetData` panics with it. -/
theorem C13_missing_slot_panics :
    (stdExternals.Apply "#attributes" (docAttributes [groupSize, groupShort])).length = 1 ∧
      ParseExtras stdExternals (docAttributes [groupSize]) =
        some [Selectable.mk "Size" ["41", "42"]] ∧
      ParseExtras stdExternals (docAttributes [groupSize, groupShort]) = none ∧
      ParseExtras stdExternals (docAttributes [groupSize, groupNoOptions]) = none ∧
      ExtractExtraName stdExternals groupShort = none ∧
      ExtractExtraVals stdExternals groupNoOptions = none :=
  ⟨rfl, rfl, rfl, rfl, rfl, rfl⟩

/-- The loop of `ParseExtras` appends one entry per child that has a child
node. -/
theorem extrasLoop_entries (E : Externals) (sets : List Node) (acc list : List Selectable)
    (h : extrasLoop E sets acc = some list) :
    ∃ added, list = acc ++ added ∧
      List.Forall₂
        (fun set sel =>
          ExtractExtraName E set = some sel.Name ∧ ExtractExtraVals E set = some sel.Options)
        (sets.filter hasChild) added := by
  induction sets generalizing acc with
  | nil =>
    simp only [extrasLoop, Option.some.injEq] at h
    exact ⟨[], by simp [h], by simp⟩
  | cons set rest ih =>
    by_cases hz : set.Children.length = 0
    · simp only [extrasLoop, hz, if_true] at h
      obtain ⟨added, hl, hf⟩ := ih acc h
      exact ⟨added, hl, by simpa [List.filter, hasChild, hz] using hf⟩
    · simp only [extrasLoop, hz, if_false] at h
      cases hn : ExtractExtraName E set with
      | none => simp [hn] at h
      | some name =>
        cases ho : ExtractExtraVals E set with
        | none => simp [hn, ho] at h
        | some opts =>
          simp only [hn, ho] at h
          obtain ⟨added, hl, hf⟩ := ih _ h
          refine ⟨Selectable.mk name opts :: added, by simp [hl], ?_⟩
          have hc : hasChild set = true := by simp [hasChild, hz]
          simp only [List.filter, hc]
          exact List.Forall₂.cons ⟨hn, ho⟩ hf

/-- C14 (amended): the list returned by `ParseExtras` has one `Selectable`
per direct child, with at least one child node, of the one `#attributes`
node, in document order, and is empty when the number of `#attributes`
matches is not one; the name of an entry is what `ExtractExtraName` returns
and its options what `ExtractExtraVals` returns, either of which can be
empty: no entry is omitted. -/
theorem C14_extras_entries (E : Externals) (node : Node) (list : List Selectable)
    (h : ParseExtras E node = some list) :
    ((E.Apply "#attributes" node).length ≠ 1 → list = []) ∧
      (∀ r, E.Apply "#attributes" node = [r] →
        List.Forall₂
          (fun set sel =>
            ExtractExtraName E set = some sel.Name ∧
              ExtractExtraVals E set = some sel.Options)
          (r.Children.filter hasChild) list) := by
  constructor
  · intro hlen
    unfold ParseExtras at h
    rcases hm : E.Apply "#attributes" node with _ | ⟨r, _ | ⟨r2, rest⟩⟩
    · simp [hm] at h
      exact h
    · simp [hm] at hlen
    · simp [hm] at h
      exact h
  · intro r hr
    simp only [ParseExtras, hr] at h
    obtain ⟨added, hl, hf⟩ := extrasLoop_entries E r.Children [] list h
    simpa [hl] using hf

/-- On the page with the groups `groupSize` and `groupBlank`, both groups have
their entry. -/
theorem C14_extras_entries_witness :
    ParseExtras stdExternals (docAttributes [groupSize, groupBlank]) =
        some [Selectable.mk "Size" ["41", "42"], Selectable.mk "" []] ∧
      List.Forall₂
        (fun set sel =>
          ExtractExtraName stdExternals set = some sel.Name ∧
            ExtractExtraVals stdExternals set = some sel.Options)
        ([groupSize, groupBlank].filter hasChild)
        [Selectable.mk "Size" ["41", "42"], Selectable.mk "" []] :=
  ⟨rfl, (C14_extras_entries stdExternals (docAttributes [groupSize, groupBlank])
    [Selectable.mk "Size" ["41", "42"], Selectable.mk "" []] rfl).2
    (elem "div" [⟨"id", "attributes"⟩] [groupSize, groupBlank]) rfl⟩

/-- C14 (counterexample): the group `groupBlank`, whose label starts with an
element and whose `select` has no option, is in the list, with an empty name
and an empty list of options. -/
theorem C14_blank_entry_kept :
    ParseExtras stdExternals (docAttributes [groupBlank]) = some [Selectable.mk "" []] :=
  rfl

/-! ## Geometry -/

/-- C15 (the code at the failing input): on a page whose `#geometry_image`
node has no child, `ParseGeometry` panics (index out of range) instead of
returning the empty string, and `GetData` with it; with an `img` child it
returns the source. -/
theorem C15_no_child_panics :
    (stdExternals.Apply "#geometry_image" (docGeometry [])).map Node.Children = [[]] ∧
      ParseGeometry stdExternals (docGeometry []) = none ∧
      ParseGeometry stdExternals (docGeometry [elem "img" [⟨"src", "/img/g/1.png"⟩] []]) =
        some "/img/g/1.png" ∧
      ParseGeometry stdExternals docBoot = some "" :=
  ⟨rfl, rfl, rfl, rfl⟩

/-! ## Descriptions -/

/-- The parts collected by `ExtractSpecialDescription` are the parts of the
children, in order. -/
theorem specialParts_eq (sets : List Node) : specialParts sets = sets.flatMap partOf := by
  induction sets with
  | nil => rfl
  | cons set rest ih =>
    simp only [specialParts, List.flatMap_cons, ih, partOf]
    by_cases h0 : set.Type_ = 0
    · have h1 : ¬ set.Type_ = 1 := by omega
      simp [h0]
    · by_cases h1 : set.Type_ = 1
      · simp [h1]
      · simp [h0, h1]

/-- The loop of `ParseDescriptions` appends the entry of the first `span` of
each chapter that has one, when these have a child. -/
theorem descriptionsLoop_eq (E : Externals) (chapters : List Node) (acc : List String)
    (hchild : ∀ chapter ∈ chapters, ∀ m ms,
      E.Apply "span" chapter = m :: ms → m.Children ≠ []) :
    descriptionsLoop E chapters acc =
      some (acc ++ (chapterSpans E chapters).map (spanEntry E)) := by
  induction chapters generalizing acc with
  | nil => simp [descriptionsLoop, chapterSpans]
  | cons chapter rest ih =>
    have hrest : ∀ ch ∈ rest, ∀ m ms, E.Apply "span" ch = m :: ms → m.Children ≠ [] :=
      fun ch hch => hchild ch (List.mem_cons_of_mem chapter hch)
    cases hs : E.Apply "span" chapter with
    | nil =>
      simp only [descriptionsLoop, hs, ih acc hrest]
      simp [chapterSpans, hs]
    | cons m ms =>
      have hm := hchild chapter (List.mem_cons_self chapter rest) m ms hs
      have hspans : chapterSpans E (chapter :: rest) = m :: chapterSpans E rest := by
        simp [chapterSpans, hs]
      rcases hc : m.Children with _ | ⟨c, _ | ⟨d, ds⟩⟩
      · exact absurd hc hm
      · simp only [descriptionsLoop, hs, hc, List.length_singleton, gt_iff_lt,
          Nat.lt_irrefl, if_false, ih _ hrest, hspans, List.map_cons, spanEntry]
        simp
      · have hlen : (c :: d :: ds).length > 1 := by simp
        simp only [descriptionsLoop, hs, hc, hlen, if_true, ih _ hrest, hspans,
          List.map_cons, spanEntry, ExtractSpecialDescription, specialParts_eq]
        simp

/-- C16 (amended): for a document tree with an `#idTab1` match in which the
first `span` of every chapter that has one has at least one child,
`ParseDescriptions` returns exactly one entry per direct child (chapter) of
the first `#idTab1` node that has a `span` descendant, in document order, and
nothing for the other chapters; the entry for a span with more than one child
is the HTML-unescaped in-order concatenation of the data of its text-type
children and of the first child of its element-type children when that first
child is a text node; the entry for a span with one child is the data of
that child as it stands. -/
theorem C16_descriptions (E : Externals) (node r : Node) (rest : List Node)
    (h : E.Apply "#idTab1" node = r :: rest)
    (hchild : ∀ chapter ∈ r.Children, ∀ m ms,
      E.Apply "span" chapter = m :: ms → m.Children ≠ []) :
    ParseDescriptions E node = some ((chapterSpans E r.Children).map (spanEntry E)) ∧
      (∀ m c d ds, m.Children = c :: d :: ds →
        spanEntry E m = E.UnescapeString (String.join ((c :: d :: ds).flatMap partOf))) ∧
      (∀ m c, m.Children = [c] → spanEntry E m = c.Data) := by
  refine ⟨?_, ?_, ?_⟩
  · simp only [ParseDescriptions, h]
    simpa using descriptionsLoop_eq E r.Children [] hchild
  · intro m c d ds hc
    simp [spanEntry, hc]
  · intro m c hc
    simp [spanEntry, hc]

/-- On the page with the chapter `<p><span>R&amp;D <b>lab</b></span></p>` the
description is the unescaped concatenation. -/
theorem C16_descriptions_witness :
    ParseDescriptions stdExternals
        (docChapter [text "R&amp;D ", elem "b" [] [text "lab"]]) = some ["R&D lab"] :=
  (C16_descriptions stdExternals (docChapter [text "R&amp;D ", elem "b" [] [text "lab"]])
    (elem "div" [⟨"id", "idTab1"⟩]
      [elem "p" [] [elem "span" [] [text "R&amp;D ", elem "b" [] [text "lab"]]]]) []
    rfl
    (by
      intro chapter hch m ms hs
      simp only [elem, Node.Children, List.mem_singleton] at hch
      subst hch
      have hm : m = elem "span" [] [text "R&amp;D ", elem "b" [] [text "lab"]] := by
        have h2 : stdExternals.Apply "span"
            (Node.mk 1 "p" [] [Node.mk 1 "span" [] [text "R&amp;D ", Node.mk 1 "b" [] [text "lab"]]]) =
            [elem "span" [] [text "R&amp;D ", elem "b" [] [text "lab"]]] := rfl
        rw [h2] at hs
        exact (List.cons.inj hs).1.symm
      rw [hm]
      exact (fun hnil => nomatch hnil))).1

/-- C16 (counterexample): the entry of a span with more than one child is not
the concatenation of the texts of the children. For the children
`R&amp;D ` and `<b>lab</b>` the entry is "R&D lab", the concatenation of the
texts "R&amp;D lab"; for the children `R&am` and `<b>p;D</b>` the entry is
"R&D", and the concatenation of the texts is "R&amp;D", unescaped one by one
or not. -/
theorem C16_entry_is_unescaped :
    ParseDescriptions stdExternals
        (docChapter [text "R&amp;D ", elem "b" [] [text "lab"]]) = some ["R&D lab"] ∧
      String.join (specialParts [text "R&amp;D ", elem "b" [] [text "lab"]]) =
        "R&amp;D lab" ∧
      ParseDescriptions stdExternals
        (docChapter [text "R&am", elem "b" [] [text "p;D"]]) = some ["R&D"] ∧
      String.join (specialParts [text "R&am", elem "b" [] [text "p;D"]]) = "R&amp;D" ∧
      String.join ((specialParts [text "R&am", elem "b" [] [text "p;D"]]).map
        stdExternals.UnescapeString) = "R&amp;D" :=
  ⟨rfl, rfl, rfl, rfl, rfl⟩

/-! ## Fetches and pauses -/

/-- The events of `GetProduct` are those of loading the node. -/
theorem getProduct_events (W : World) (E : Externals) (id : Nat) :
    (GetProduct W E id).1 = (loadNode W id).1 := by
  rw [getProduct_eq]
  rcases loadNode W id with ⟨events, _ | _ | _⟩ <;> rfl

/-- The events of `GetHtmlNodeFromUrl`: the fetch, and the cache write when
the page parsed. -/
theorem getHtmlNodeFromUrl_events (W : World) (id : Nat) :
    (GetHtmlNodeFromUrl W id).1 = [Event.get id] ∨
      (GetHtmlNodeFromUrl W id).1 = [Event.get id, Event.save id] := by
  unfold GetHtmlNodeFromUrl
  rcases hg : W.Get id with _ | _ | buffer
  · simp
  · simp
  · rcases hp : W.Parse buffer with _ | node
    · simp [hp]
    · by_cases hw : W.WriteFile id = true
      · simp [hp, hw]
      · simp [hp, hw]

/-- The events of a fetch with its pause: the pause follows a fetch that
returns, and only that. -/
theorem fetchAndSleep_events (W : World) (id : Nat) :
    ((GetHtmlNodeFromUrl W id).2 ≠ none →
        (fetchAndSleep W id).1 = (GetHtmlNodeFromUrl W id).1 ++ [Event.sleep]) ∧
      ((GetHtmlNodeFromUrl W id).2 = none →
        (fetchAndSleep W id).1 = (GetHtmlNodeFromUrl W id).1) := by
  unfold fetchAndSleep
  rcases GetHtmlNodeFromUrl W id with ⟨events, _ | node⟩
  · exact ⟨fun h => absurd rfl h, fun _ => rfl⟩
  · exact ⟨fun _ => rfl, fun h => nomatch h⟩

/-- A fetch is among the events of a fetch with its pause. -/
theorem fetchAndSleep_get (W : World) (id : Nat) : Event.get id ∈ (fetchAndSleep W id).1 := by
  have hev := getHtmlNodeFromUrl_events W id
  by_cases hn : (GetHtmlNodeFromUrl W id).2 = none
  · rw [(fetchAndSleep_events W id).2 hn]
    rcases hev with h | h <;> simp [h]
  · rw [(fetchAndSleep_events W id).1 hn]
    rcases hev with h | h <;> simp [h]

/-- C17: `GetProduct` fetches the page of an identifier exactly when the flag
`cached` is off, or the cache file of the identifier does not exist, or the
cache file yields no tree; with the flag on and a cache file that exists and
parses there is no event at all, neither fetch nor pause; a fetch that
returns is followed by exactly one pause, the last event of `GetProduct`, and
a fetch that ends the process by none. -/
theorem C17_fetch_and_pause (W : World) (E : Externals) (id : Nat) :
    (Event.get id ∈ (GetProduct W E id).1 ↔
        (W.cached = false ∨ W.CheckOnDisc id = false ∨ GetHtmlNodeFromFile W id = none)) ∧
      (W.cached = true → W.CheckOnDisc id = true → GetHtmlNodeFromFile W id ≠ none →
        (GetProduct W E id).1 = []) ∧
      (Event.get id ∈ (GetProduct W E id).1 → (GetHtmlNodeFromUrl W id).2 ≠ none →
        (GetProduct W E id).1 = (GetHtmlNodeFromUrl W id).1 ++ [Event.sleep]) ∧
      (Event.get id ∈ (GetProduct W E id).1 → (GetHtmlNodeFromUrl W id).2 = none →
        (GetProduct W E id).1 = (GetHtmlNodeFromUrl W id).1) ∧
      Event.sleep ∉ (GetHtmlNodeFromUrl W id).1 := by
  have hcache : W.cached = true → W.CheckOnDisc id = true →
      GetHtmlNodeFromFile W id ≠ none → (loadNode W id).1 = [] := by
    intro hc hd hf
    rcases hn : GetHtmlNodeFromFile W id with _ | n
    · exact absurd hn hf
    · simp [loadNode, hc, hd, hn]
  have hfetch : (W.cached = false ∨ W.CheckOnDisc id = false ∨
      GetHtmlNodeFromFile W id = none) → loadNode W id = fetchAndSleep W id := by
    intro h
    rcases h with h | h | h
    · simp [loadNode, h]
    · by_cases hc : W.cached = true
      · simp [loadNode, hc, h]
      · simp [loadNode, hc]
    · by_cases hc : W.cached = true
      · by_cases hd : W.CheckOnDisc id = true
        · simp [loadNode, hc, hd, h]
        · simp [loadNode, hc, hd]
      · simp [loadNode, hc]
  have hiff : Event.get id ∈ (loadNode W id).1 ↔
      (W.cached = false ∨ W.CheckOnDisc id = false ∨ GetHtmlNodeFromFile W id = none) := by
    constructor
    · intro hmem
      by_contra hcon
      simp only [not_or, Bool.not_eq_false] at hcon
      rw [hcache hcon.1 hcon.2.1 hcon.2.2] at hmem
      simp at hmem
    · intro h
      rw [hfetch h]
      exact fetchAndSleep_get W id
  have hsleep : Event.sleep ∉ (GetHtmlNodeFromUrl W id).1 := by
    rcases getHtmlNodeFromUrl_events W id with h | h <;> simp [h]
  rw [getProduct_events]
  refine ⟨hiff, hcache, ?_, ?_, hsleep⟩
  · intro hmem hret
    rw [hfetch (hiff.mp hmem)]
    exact (fetchAndSleep_events W id).1 hret
  · intro hmem hret
    rw [hfetch (hiff.mp hmem)]
    exact (fetchAndSleep_events W id).2 hret

/-- In `cachedWorld` the product 5 comes from its cache file, without fetch
or pause; the cache file of 6 does not parse and 7 has none, so both are
fetched, with one pause each. -/
theorem C17_fetch_and_pause_witness :
    (GetProduct cachedWorld stdExternals 5).1 = [] ∧
      (GetProduct cachedWorld stdExternals 6).1 =
        [Event.get 6, Event.save 6, Event.sleep] ∧
      (GetProduct cachedWorld stdExternals 7).1 =
        (GetHtmlNodeFromUrl cachedWorld 7).1 ++ [Event.sleep] :=
  ⟨(C17_fetch_and_pause cachedWorld stdExternals 5).2.1 rfl rfl (fun h => nomatch h),
    rfl,
    (C17_fetch_and_pause cachedWorld stdExternals 7).2.2.1
      (((C17_fetch_and_pause cachedWorld stdExternals 7).1).mpr (Or.inr (Or.inl rfl)))
      (fun h => nomatch h)⟩

/-! ## The title -/

/-- With a match of the chain and a first child of the `h2`, `ParseTitle`
returns the unescaped data of that child. -/
theorem parseTitle_match (E : Externals) (node p q c : Node) (ps qs cs : List Node)
    (hp : E.Apply "#primary_block" node = p :: ps) (hq : E.Apply "h2" p = q :: qs)
    (hc : q.Children = c :: cs) :
    ParseTitle E node = some (E.UnescapeString c.Data) := by
  simp [ParseTitle, selectorLoop, hp, hq, hc]

/-- C18 (amended): `ParseTitle` returns the HTML-entity-unescaped data of the
first child of the first `h2` under the first `#primary_block`; for the text
"Hiking Boot&nbsp;X", which `html.UnescapeString` turns into "Hiking Boot",
a no-break space (U+00A0) and "X", it returns that string, with U+00A0 and
not U+0020 in place of the entity. -/
theorem C18_title_unescaped (E : Externals) (node p q c : Node) (ps qs cs : List Node)
    (hp : E.Apply "#primary_block" node = p :: ps) (hq : E.Apply "h2" p = q :: qs)
    (hc : q.Children = c :: cs) :
    ParseTitle E node = some (E.UnescapeString c.Data) ∧
      (c.Data = "Hiking Boot&nbsp;X" →
        E.UnescapeString "Hiking Boot&nbsp;X" = "Hiking Boot\u00a0X" →
        ParseTitle E node = some "Hiking Boot\u00a0X") := by
  have h := parseTitle_match E node p q c ps qs cs hp hq hc
  refine ⟨h, ?_⟩
  intro hd hu
  rw [h, hd, hu]

/-- On the page with the title "Hiking Boot&nbsp;X" the title returned has
the no-break space. -/
theorem C18_title_unescaped_witness :
    ParseTitle stdExternals (docTitled "Hiking Boot&nbsp;X") = some "Hiking Boot\u00a0X" ∧
      "Hiking Boot\u00a0X".data.map Char.toNat =
        [72, 105, 107, 105, 110, 103, 32, 66, 111, 111, 116, 160, 88] :=
  ⟨(C18_title_unescaped stdExternals (docTitled "Hiking Boot&nbsp;X")
      (elem "div" [⟨"id", "primary_block"⟩] [elem "h2" [] [text "Hiking Boot&nbsp;X"]])
      (elem "h2" [] [text "Hiking Boot&nbsp;X"]) (text "Hiking Boot&nbsp;X") [] [] []
      rfl rfl rfl).2 rfl rfl,
    by decide⟩

/-- C18 (counterexample): on the page with the title "Hiking Boot&nbsp;X" the
title returned is not "Hiking Boot X" with an ordinary space: its twelfth
character is U+00A0 (160), not U+0020 (32). -/
theorem C18_nbsp_is_not_a_space :
    ParseTitle stdExternals (docTitled "Hiking Boot&nbsp;X") ≠ some "Hiking Boot X" ∧
      (ParseTitle stdExternals (docTitled "Hiking Boot&nbsp;X")).map
          (fun t => t.data.map Char.toNat) =
        some [72, 105, 107, 105, 110, 103, 32, 66, 111, 111, 116, 160, 88] ∧
      "Hiking Boot X".data.map Char.toNat =
        [72, 105, 107, 105, 110, 103, 32, 66, 111, 111, 116, 32, 88] :=
  ⟨by decide, by decide, by decide⟩

/-- The sentinel is returned without a match of the chain, and with a match
whose text unescapes to the sentinel. -/
theorem parseTitle_sentinel (E : Externals) (node : Node) :
    ParseTitle E node = some "No match" ↔
      ((E.Apply "#primary_block" node = [] ∨
          ∃ p rest, E.Apply "#primary_block" node = p :: rest ∧ E.Apply "h2" p = []) ∨
        ∃ p ps q qs c cs, E.Apply "#primary_block" node = p :: ps ∧
          E.Apply "h2" p = q :: qs ∧ q.Children = c :: cs ∧
          E.UnescapeString c.Data = "No match") := by
  constructor
  · intro h
    rcases hp : E.Apply "#primary_block" node with _ | ⟨p, ps⟩
    · exact Or.inl (Or.inl rfl)
    · rcases hq : E.Apply "h2" p with _ | ⟨q, qs⟩
      · exact Or.inl (Or.inr ⟨p, ps, rfl, hq⟩)
      · rcases hc : q.Children with _ | ⟨c, cs⟩
        · simp [ParseTitle, selectorLoop, hp, hq, hc] at h
        · rw [parseTitle_match E node p q c ps qs cs hp hq hc] at h
          exact Or.inr ⟨p, ps, q, qs, c, cs, rfl, hq, hc, Option.some.inj h⟩
  · intro h
    rcases h with h | ⟨p, ps, q, qs, c, cs, hp, hq, hc, hu⟩
    · exact parseTitle_no_match E node h
    · rw [parseTitle_match E node p q c ps qs cs hp hq hc, hu]

/-- The only error of the assembly is "Not a valid product", on the sentinel
of `ParseTitle`. -/
theorem getRecord_error (E : Externals) (node : Node) (e : String) :
    GetRecord E node = some (Except.error e) ↔
      (e = "Not a valid product" ∧ ParseTitle E node = some "No match") := by
  constructor
  · intro h
    unfold GetRecord at h
    cases ht : ParseTitle E node with
    | none => simp [ht] at h
    | some t =>
      simp only [ht, Option.bind_eq_bind, Option.some_bind] at h
      by_cases hn : t = "No match"
      · simp [hn] at h
        exact ⟨h.symm, by rw [hn]⟩
      · simp only [hn, if_false] at h
        simp only [Option.bind_eq_some] at h
        obtain ⟨c, _, f, _, d, _, x, _, y, _, g, _, hr⟩ := h
        simp at hr
  · intro h
    simp [GetRecord, h.1, h.2]

/-- C19 (amended): `GetData` fails with "Not a valid product" exactly when
`ParseTitle` returns "No match": when the chain `#primary_block`, `h2` has
no match, and also when it matches and the unescaped text of the first child
of the `h2` is literally "No match". For every document tree in which the
chain matches, the unescaped text of the first child of the `h2` is not
"No match" and the other extractors return, a record with that name is
assembled, and `GetData` returns its encoding when the encoder succeeds. -/
theorem C19_title_gate (E : Externals) (node : Node) :
    (∀ e, GetRecord E node = some (Except.error e) ↔
        (e = "Not a valid product" ∧
          ((E.Apply "#primary_block" node = [] ∨
              ∃ p rest, E.Apply "#primary_block" node = p :: rest ∧ E.Apply "h2" p = []) ∨
            ∃ p ps q qs c cs, E.Apply "#primary_block" node = p :: ps ∧
              E.Apply "h2" p = q :: qs ∧ q.Children = c :: cs ∧
              E.UnescapeString c.Data = "No match"))) ∧
      (∀ p ps q qs c cs category features descriptions extras details geometry,
        E.Apply "#primary_block" node = p :: ps → E.Apply "h2" p = q :: qs →
        q.Children = c :: cs → E.UnescapeString c.Data ≠ "No match" →
        ParseCategory E node = some category → ParseFeatures E node = some features →
        ParseDescriptions E node = some descriptions → ParseExtras E node = some extras →
        ParseDetails E node = some details → ParseGeometry E node = some geometry →
        GetRecord E node =
            some (Except.ok (Result.mk (E.UnescapeString c.Data) category features
              (ParseImages E node) descriptions extras details geometry)) ∧
          ∀ buffer,
            E.Encode (Result.mk (E.UnescapeString c.Data) category features
              (ParseImages E node) descriptions extras details geometry) = Except.ok buffer →
            GetData E node = some (buffer, none)) := by
  constructor
  · intro e
    rw [getRecord_error, parseTitle_sentinel]
  · intro p ps q qs c cs category features descriptions extras details geometry
      hp hq hc hn hcat hfeat hdesc hext hdet hgeo
    have ht := parseTitle_match E node p q c ps qs cs hp hq hc
    have hr : GetRecord E node =
        some (Except.ok (Result.mk (E.UnescapeString c.Data) category features
          (ParseImages E node) descriptions extras details geometry)) := by
      simp [GetRecord, ht, hn, hcat, hfeat, hdesc, hext, hdet, hgeo]
    refine ⟨hr, ?_⟩
    intro buffer he
    simp [GetData, hr, he]

/-- On `docBoot` the chain matches, the title is not the sentinel and every
extractor returns: `GetData` returns the record. -/
theorem C19_title_gate_witness :
    GetData stdExternals docBoot = some (bootJson, none) :=
  ((C19_title_gate stdExternals docBoot).2
    (elem "div" [⟨"id", "primary_block"⟩]
      [elem "h2" [] [text "Hiking Boot"],
       elem "img" [⟨"id", "bigpic"⟩, ⟨"src", "/img/large/1.jpg"⟩] [],
       elem "div" [⟨"id", "thumbs_list_frame"⟩]
        [elem "img" [⟨"src", "/img/medium/1.jpg"⟩] [],
         elem "img" [⟨"src", "/img/medium/2.jpg"⟩] []]])
    [] (elem "h2" [] [text "Hiking Boot"]) [] (text "Hiking Boot") []
    "" none [] [] [] "" rfl rfl rfl (by decide) rfl rfl rfl rfl rfl rfl).2 bootJson rfl

/-- C19 (counterexample): on the page whose title is the text "No match" the
chain matches and the `h2` has a first child, and `GetData` fails with
"Not a valid product": the product is not emitted. -/
theorem C19_no_match_title_rejected :
    (∃ p ps q qs, stdExternals.Apply "#primary_block" (docTitled "No match") = p :: ps ∧
        stdExternals.Apply "h2" p = q :: qs ∧ q.Children = [text "No match"]) ∧
      GetData stdExternals (docTitled "No match") = some ("", some "Not a valid product") :=
  ⟨⟨_, _, _, _, rfl, rfl, rfl⟩, rfl⟩

/-! ## Termination of the range loop -/

/-- With `max = 2 ^ 64 - 1` the loop condition holds for every value of the
counter: as long as the calls return, each step of the loop is one more
call, and the loop is still running. -/
theorem rangeLoop_running (gp : Nat → Option (String × Option String))
    (hgp : ∀ id, gp id ≠ none) (fuel i : Nat) (hi : i < 2 ^ 64) (chunks : String)
    (calls : List Nat) :
    (rangeLoop gp (2 ^ 64 - 1) fuel i chunks calls).outcome = Outcome.running ∧
      (rangeLoop gp (2 ^ 64 - 1) fuel i chunks calls).calls.length = calls.length + fuel := by
  induction fuel generalizing i chunks calls with
  | zero => exact ⟨rfl, rfl⟩
  | succ fuel ih =>
    have hle : i ≤ 2 ^ 64 - 1 := by omega
    cases hg : gp i with
    | none => exact absurd hg (hgp i)
    | some x =>
      obtain ⟨data, err⟩ := x
      have hlt : (i + 1) % 2 ^ 64 < 2 ^ 64 := Nat.mod_lt _ (by norm_num)
      obtain ⟨ho, hl⟩ := ih ((i + 1) % 2 ^ 64) hlt
        (if err.isSome then chunks
          else (chunks ++ data) ++ (if i < 2 ^ 64 - 1 then "," else ""))
        (calls ++ [i])
      simp only [rangeLoop, hle, if_true, hg]
      refine ⟨ho, ?_⟩
      rw [hl, List.length_append, List.length_singleton]
      omega

/-- C20 (the code at the failing input): with `-max=18446744073709551615`
(`2 ^ 64 - 1`) and calls of `GetProduct` that return, the range loop does not
terminate: after any number of steps it is still running, one call made per
step, whatever `min` is. -/
theorem C20_loop_never_ends (gp : Nat → Option (String × Option String))
    (hgp : ∀ id, gp id ≠ none) (min fuel : Nat) (hmin : min < 2 ^ 64) :
    (main gp 0 min (2 ^ 64 - 1) fuel).outcome = Outcome.running ∧
      (main gp 0 min (2 ^ 64 - 1) fuel).calls.length = fuel := by
  have h := rangeLoop_running gp hgp fuel min hmin "\x7b\"Products\":[" []
  have hmain : main gp 0 min (2 ^ 64 - 1) fuel =
      rangeLoop gp (2 ^ 64 - 1) fuel min "\x7b\"Products\":[" [] := rfl
  rw [hmain]
  simpa using h

/-- With `-min=18446744073709551615 -max=18446744073709551615` on the site
without products, the range has one identifier, and after three steps the
loop is still running: the counter has wrapped to 0. -/
theorem C20_loop_never_ends_witness :
    (program (exampleWorld siteGone) stdExternals 0 (2 ^ 64 - 1) (2 ^ 64 - 1) 3).outcome =
        Outcome.running ∧
      (program (exampleWorld siteGone) stdExternals 0 (2 ^ 64 - 1) (2 ^ 64 - 1) 3).calls.length
        = 3 ∧
      (program (exampleWorld siteGone) stdExternals 0 (2 ^ 64 - 1) (2 ^ 64 - 1) 3).calls =
        [18446744073709551615, 0, 1] :=
  have h := C20_loop_never_ends
    (fun id => (GetProduct (exampleWorld siteGone) stdExternals id).2)
    (fun _ h => nomatch h) (2 ^ 64 - 1) 3 (by norm_num)
  ⟨h.1, h.2, by decide⟩

end Scrapper
